import Mathlib

set_option maxHeartbeats 1000000

/-!
Shallow Lean embedding of the NASA KOI synchronization engine of the
Backend_space repository: the scheduler guard (`SchedulerService` in
services/schedulerService.js) and the synchronization orchestrator,
dataset differ, classification gateway and Kepler-name allocator
(`NasaSyncService`).  JavaScript numbers are modelled as `Rat`, strings as
`String`, the MongoDB `koi_objects` collection as a `List KOIRecord`, and
the two remote HTTP dependencies (NASA TAP, inference endpoint) as
explicit oracles in a `SyncEnv`.  Wall-clock timestamps, durations and
console logging are not modelled; database inserts are modelled as always
succeeding list appends.
-/

/-- One row of the remote identity+status projection returned by
`fetchKepOINamesFromNASA` (query `SELECT kepoi_name, koi_disposition
FROM cumulative WHERE kepoi_name IS NOT NULL`). -/
structure KOIEntry where
  kepoi_name : String
  koi_disposition : Option String
deriving DecidableEq

/-- The full field set returned by `fetchCompleteKOIData` for one KOI.
Only the fields the synchronization engine reads are named; the remaining
physical columns are carried opaquely in `payload`. -/
structure KOIFull where
  kepoi_name : String
  koi_disposition : Option String
  kepler_name : Option String
  payload : List (String × Rat)
deriving DecidableEq

/-- The `ai_prediction` audit object the gateway stores alongside an
AI-classified record (subset of the fields built in
`sendCandidateToInferAPI`). -/
structure AIPrediction where
  prediction : Option String
  probability : Option Rat
  confidence_score : Rat
deriving DecidableEq

/-- One document of the `koi_objects` collection as written by
`saveKOIToMongoDB`: the fetched fields plus the fields the sync engine
adds (`IS_AI` is absent on directly persisted NASA rows, which JavaScript
reads as false). -/
structure KOIRecord where
  kepoi_name : String
  koi_disposition : Option String
  kepler_name : Option String
  is_ai : Bool
  confidence_score : Option Rat
  ai_prediction : Option AIPrediction
  sync_source : String
  payload : List (String × Rat)
deriving DecidableEq

/-- Body of a successful HTTP 200 answer of the inference endpoint. -/
structure InferResponse where
  prediction : Option String
  probability : Option Rat
  explanation : Option String
deriving DecidableEq

/-- How one axios call settles: a timeout abort, a transport error, a
rejection carrying a non-2xx response, or a resolved response with its
status code. -/
inductive HttpResult (α : Type) where
  | timeout
  | connError (msg : String)
  | httpError (status : Nat) (statusText : String)
  | ok (status : Nat) (data : α)
deriving DecidableEq

/-- The structured object `sendCandidateToInferAPI` returns (never
throws); fields that a given branch does not set are `none`. -/
structure SendResult where
  success : Bool
  kepoi_name : String
  kepler_name : Option String
  status : Option Nat
  action : Option String
  prediction : Option String
  error : Option String
deriving DecidableEq

/-- The two remote dependencies of one synchronization pass:
`fetchNames` is the settled result of `fetchKepOINamesFromNASA` (its
error already wrapped by that function), `fetchFull` the per-identity
result of `fetchCompleteKOIData`, and `infer` the settled axios POST of
`sendCandidateToInferAPI`. -/
structure SyncEnv where
  fetchNames : Except String (List KOIEntry)
  fetchFull : String → Except String KOIFull
  infer : String → HttpResult InferResponse

/-- Model of JavaScript `toUpperCase` for the ASCII strings this service
compares (`Char.toUpper` upcases exactly the ASCII letters). -/
def upperStr (s : String) : String :=
  String.mk (s.data.map Char.toUpper)

/-- Maximal leading run of decimal digits, the greedy match of a
regular-expression digit class at a position. -/
def takeDigits : List Char → List Char × List Char
  | [] => ([], [])
  | c :: cs =>
    if c.isDigit then
      let p := takeDigits cs
      (c :: p.1, p.2)
    else ([], c :: cs)

/-- Whitespace class of the regular expressions used by the allocator. -/
def isSpaceChar (c : Char) : Bool :=
  c == ' ' || c == '\t' || c == '\n' || c == '\r'

/-- Maximal leading run of whitespace. -/
def takeSpaces : List Char → List Char × List Char
  | [] => ([], [])
  | c :: cs =>
    if isSpaceChar c then
      let p := takeSpaces cs
      (c :: p.1, p.2)
    else ([], c :: cs)

/-- ASCII letter class, as matched case-insensitively by the letter
capture group of `extractKeplerLetter`. -/
def isAsciiLetterChar (c : Char) : Bool :=
  (decide ('a' ≤ c) && decide (c ≤ 'z')) || (decide ('A' ≤ c) && decide (c ≤ 'Z'))

/-- Numeric value of a decimal digit character. -/
def digitVal (c : Char) : Nat := c.toNat - 48

/-- One step of decimal accumulation. -/
def pStep (a : Nat) (c : Char) : Nat := a * 10 + digitVal c

/-- `parseInt` on a string of decimal digits. -/
def parseDigits (ds : List Char) : Nat :=
  ds.foldl pStep 0

/-- The literal the Kepler-name regular expressions match
case-insensitively. -/
def keplerLit : List Char := ['k', 'e', 'p', 'l', 'e', 'r', '-']

/-- Case-insensitive match of a lowercase literal at the head of the
input, returning the remainder on success. -/
def stripCI : List Char → List Char → Option (List Char)
  | [], s => some s
  | _ :: _, [] => none
  | p :: ps, c :: cs => if c.toLower = p then stripCI ps cs else none

/-- Match of `Kepler-(\d+)` (case-insensitive) at one position: the
literal, then a greedy nonempty digit run; yields the captured number and
the remainder. -/
def matchKeplerAt (s : List Char) : Option (Nat × List Char) :=
  match stripCI keplerLit s with
  | none => none
  | some rest =>
    match takeDigits rest with
    | ([], _) => none
    | (ds, rest2) => some (parseDigits ds, rest2)

/-- Unanchored scan for the first position where `Kepler-(\d+)`
matches. -/
def scanKepler : List Char → Option (Nat × List Char)
  | [] => none
  | c :: cs =>
    match matchKeplerAt (c :: cs) with
    | some r => some r
    | none => scanKepler cs

/-- `NasaSyncService.extractKeplerNumber`: the number captured by
`/Kepler-(\d+)/i`, or null when the pattern does not occur. -/
def extractKeplerNumber (kepler_name : String) : Option Nat :=
  (scanKepler kepler_name.data).map Prod.fst

/-- Match of `Kepler-\d+\s+([a-z])` (case-insensitive) at one position.
The three character classes are pairwise disjoint, so the greedy runs
need no backtracking. -/
def matchKeplerLetterAt (s : List Char) : Option Char :=
  match stripCI keplerLit s with
  | none => none
  | some rest =>
    match takeDigits rest with
    | ([], _) => none
    | (_, rest2) =>
      match takeSpaces rest2 with
      | ([], _) => none
      | (_, rest3) =>
        match rest3 with
        | [] => none
        | c :: _ => if isAsciiLetterChar c then some c.toLower else none

/-- Unanchored scan for the first position where the letter pattern
matches. -/
def scanKeplerLetter : List Char → Option Char
  | [] => none
  | c :: cs =>
    match matchKeplerLetterAt (c :: cs) with
    | some r => some r
    | none => scanKeplerLetter cs

/-- `NasaSyncService.extractKeplerLetter`: the lowercased letter captured
by `/Kepler-\d+\s+([a-z])/i`, or null. -/
def extractKeplerLetter (kepler_name : String) : Option Char :=
  scanKeplerLetter kepler_name.data

/-- The anchored filter `/^Kepler-\d+/i` that `findLastKeplerName` uses
to select documents. -/
def matchesKeplerStart (s : String) : Bool :=
  (matchKeplerAt s.data).isSome

/-- Fuel-driven decimal rendering helper (fuel at least the number
suffices because the argument shrinks by a factor of ten each step). -/
def natReprGo : Nat → Nat → List Char → List Char
  | 0, _, acc => acc
  | fuel + 1, n, acc =>
    if n = 0 then acc else natReprGo fuel (n / 10) (Char.ofNat (48 + n % 10) :: acc)

/-- Decimal digits of a natural number, as a JavaScript template literal
renders it. -/
def natReprList (n : Nat) : List Char :=
  if n = 0 then ['0'] else natReprGo n n []

/-- A composed Kepler name, the template literal
`Kepler-<number> <letter>` used by `generateKeplerName`. -/
def mkKeplerName (n : Nat) (letter : Char) : String :=
  String.mk (['K', 'e', 'p', 'l', 'e', 'r', '-'] ++ natReprList n ++ [' ', letter])

/-- `NasaSyncService.extractKOIBase`: everything before the first dot
(`split` at the dot, first component). -/
def extractKOIBase (kepoi_name : String) : String :=
  String.mk (kepoi_name.data.takeWhile (fun c => c ≠ '.'))

/-- Case-insensitive prefix test, the meaning of the anchored
case-insensitive regex `findSimilarKOIs` runs against `kepoi_name`. -/
def startsWithCI : List Char → List Char → Bool
  | [], _ => true
  | _ :: _, [] => false
  | p :: ps, c :: cs => (p.toLower == c.toLower) && startsWithCI ps cs

/-- `NasaSyncService.findSimilarKOIs`: every stored record whose
`kepoi_name` starts (case-insensitively) with the base followed by a
dot. -/
def findSimilarKOIs (store : List KOIRecord) (koiBase : String) : List KOIRecord :=
  store.filter (fun r => startsWithCI (koiBase.data ++ ['.']) r.kepoi_name.data)

/-- One step of the `keplerGroups` accumulation: create the group of a
number on first sight and append the extracted letter when there is
one. -/
def insertGroup : List (Nat × List Char) → Nat → Option Char → List (Nat × List Char)
  | [], n, l => [(n, l.toList)]
  | (m, ls) :: rest, n, l =>
    if m = n then (m, ls ++ l.toList) :: rest
    else (m, ls) :: insertGroup rest n l

/-- The `keplerGroups` object of `generateKeplerName`: for each similar
KOI carrying a Kepler name, group the used letters under the extracted
number.  A zero number is skipped because the source guards with the
truthiness test `if (number)`. -/
def buildStep (groups : List (Nat × List Char)) (koi : KOIRecord) : List (Nat × List Char) :=
  match koi.kepler_name with
  | none => groups
  | some kn =>
    match extractKeplerNumber kn with
    | none => groups
    | some n =>
      if n = 0 then groups else insertGroup groups n (extractKeplerLetter kn)

/-- The `keplerGroups` object accumulated over the similar KOIs. -/
def buildKeplerGroups (similars : List KOIRecord) : List (Nat × List Char) :=
  similars.foldl buildStep []

/-- Insertion into an ascending list, used to model the ascending
numeric iteration order of JavaScript `Object.keys` over integer-like
keys. -/
def insertSorted (n : Nat) : List Nat → List Nat
  | [] => [n]
  | m :: ms => if n ≤ m then n :: m :: ms else m :: insertSorted n ms

/-- Ascending ordering of the group keys, the order `Object.keys`
enumerates integer-like properties. -/
def sortKeys (l : List Nat) : List Nat :=
  l.foldr insertSorted []

/-- Letters recorded under one numeric key (`keplerGroups[n]`). -/
def lookupGroup (groups : List (Nat × List Char)) (n : Nat) : List Char :=
  match groups.find? (fun p => p.1 == n) with
  | some p => p.2
  | none => []

/-- The `reduce` of `generateKeplerName` without an initial value: keep
the earlier key only when its group is strictly larger. -/
def pickMax (f : Nat → Nat) (k0 : Nat) (ks : List Nat) : Nat :=
  ks.foldl (fun a b => if f b < f a then a else b) k0

/-- The `mostPopularNumber` selection over the keys of the groups
object, `none` when there are no groups. -/
def pickMostPopular (groups : List (Nat × List Char)) : Option Nat :=
  match sortKeys (groups.map Prod.fst) with
  | [] => none
  | k :: ks => some (pickMax (fun n => (lookupGroup groups n).length) k ks)

/-- The alphabet string of `getNextAvailableLetter`, starting at b. -/
def alphabetLetters : List Char :=
  ['b', 'c', 'd', 'e', 'f', 'g', 'h', 'i', 'j', 'k', 'l', 'm', 'n',
   'o', 'p', 'q', 'r', 's', 't', 'u', 'v', 'w', 'x', 'y', 'z']

/-- The scanning loop of `getNextAvailableLetter`: first alphabet letter
not yet used, falling back to z after the loop. -/
def nextLetterLoop : List Char → List Char → Char
  | [], _ => 'z'
  | c :: rest, used => if used.contains c then nextLetterLoop rest used else c

/-- `NasaSyncService.getNextAvailableLetter`. -/
def getNextAvailableLetter (usedLetters : List Char) : Char :=
  nextLetterLoop alphabetLetters usedLetters

/-- One `forEach` step of `findLastKeplerName`: remember the number and
name when the extracted number is truthy and strictly larger than the
maximum so far. -/
def lastStep (acc : Nat × Option String) (kn : String) : Nat × Option String :=
  match extractKeplerNumber kn with
  | none => acc
  | some n => if n ≠ 0 ∧ acc.1 < n then (n, some kn) else acc

/-- `NasaSyncService.findLastKeplerName`: over the stored Kepler names
matching `/^Kepler-\d+/i`, the name carrying the largest (truthy)
number, or null. -/
def findLastKeplerName (store : List KOIRecord) : Option String :=
  let results := (store.filterMap (fun r => r.kepler_name)).filter matchesKeplerStart
  if results.isEmpty then none
  else (results.foldl lastStep (0, none)).2

/-- `NasaSyncService.generateKeplerName`.  Case A (some group of similar
named KOIs exists): reuse the most populated group's number with the
next free letter.  Case B: one past the store-wide maximum, letter b.
The catch-all fallback name of the source is unreachable here because
the model is pure. -/
def generateKeplerName (store : List KOIRecord) (kepoi_name : String) : String :=
  let koiBase := extractKOIBase kepoi_name
  let similarKOIs := findSimilarKOIs store koiBase
  let keplerGroups := buildKeplerGroups similarKOIs
  match pickMostPopular keplerGroups with
  | some mostPopularNumber =>
    let usedLetters := lookupGroup keplerGroups mostPopularNumber
    mkKeplerName mostPopularNumber (getNextAvailableLetter usedLetters)
  | none =>
    let newNumber :=
      match findLastKeplerName store with
      | some s => (extractKeplerNumber s).getD 0 + 1
      | none => 1
    mkKeplerName newNumber 'b'

/-- The hard axios timeout of the inference call, in milliseconds. -/
def BACKEND_INFER_TIMEOUT_MS : Nat := 10000

/-- The document `saveKOIToMongoDB` writes for a directly persisted
NASA row: the fetched fields plus the sync metadata stamp. -/
def recordOfFull (d : KOIFull) : KOIRecord :=
  ⟨d.kepoi_name, d.koi_disposition, d.kepler_name, false, none, none, "nasa_tap", d.payload⟩

/-- `NasaSyncService.sendCandidateToInferAPI`, given the current store
(read by the name allocator and extended by a successful save).  Every
branch returns a structured result; the surrounding catch-all of the
source is the reason the model is total.  A failed full-data fetch
surfaces through the same catch-all as a connection error.  The
inference endpoint is consulted exactly once: no retry. -/
def sendCandidateToInferAPI (env : SyncEnv) (store : List KOIRecord)
    (kepoi_name : String) : SendResult × List KOIRecord :=
  match env.fetchFull kepoi_name with
  | .error msg =>
    (⟨false, kepoi_name, none, none, none, none,
      some ("Connection error: " ++ msg)⟩, store)
  | .ok fullKoiData =>
    match env.infer kepoi_name with
    | .timeout =>
      (⟨false, kepoi_name, none, none, none, none, some "Timeout 10s exceeded"⟩, store)
    | .connError msg =>
      (⟨false, kepoi_name, none, none, none, none,
        some ("Connection error: " ++ msg)⟩, store)
    | .httpError st stText =>
      (⟨false, kepoi_name, none, some st, none, none,
        some ("HTTP " ++ Nat.repr st ++ ": " ++ stText)⟩, store)
    | .ok st data =>
      if st = 200 then
        let prediction := data.prediction.map upperStr
        if prediction = some "FALSE POSITIVE" then
          let probability := data.probability.getD 0
          let confidenceScore := 1 - probability
          let enrichedData : KOIRecord :=
            ⟨fullKoiData.kepoi_name, some "FALSE POSITIVE", fullKoiData.kepler_name,
             true, some confidenceScore,
             some ⟨data.prediction, data.probability, confidenceScore⟩,
             "nasa_tap", fullKoiData.payload⟩
          (⟨true, kepoi_name, none, some st, some "saved_as_false_positive",
            prediction, none⟩, store ++ [enrichedData])
        else if prediction = some "CONFIRMED" then
          let probability := data.probability.getD 0
          let confidenceScore := probability
          let keplerName := generateKeplerName store kepoi_name
          let enrichedData : KOIRecord :=
            ⟨fullKoiData.kepoi_name, some "CONFIRMED", some keplerName,
             true, some confidenceScore,
             some ⟨data.prediction, data.probability, confidenceScore⟩,
             "nasa_tap", fullKoiData.payload⟩
          (⟨true, kepoi_name, some keplerName, some st, some "saved_as_confirmed",
            prediction, none⟩, store ++ [enrichedData])
        else
          (⟨true, kepoi_name, none, some st, some "prediction_not_supported",
            prediction, none⟩, store)
      else
        (⟨false, kepoi_name, none, some st, none, none,
          some ("HTTP " ++ Nat.repr st ++ " - non-200 response")⟩, store)

/-- Whether the gateway call for this identity settles in a failure
branch (fetch failure, timeout, transport error, rejected or non-200
response); independent of the store. -/
def sendOutcomeFailed (env : SyncEnv) (name : String) : Bool :=
  match env.fetchFull name with
  | .error _ => true
  | .ok _ =>
    match env.infer name with
    | .timeout => true
    | .connError _ => true
    | .httpError _ _ => true
    | .ok st _ => decide (st ≠ 200)

/-- One entry of the pass's `errorDetails` list (`duration` omitted:
time is not modelled). -/
structure ErrorDetail where
  kepoi_name : Option String
  errType : String
  error : String
  status : Option String
deriving DecidableEq

/-- The counter set of one synchronization pass (`stats` object of
`synchronizeKOIData`; timestamps and duration omitted). -/
structure SyncStats where
  totalFromNASA : Nat
  newKOIs : Nat
  confirmed : Nat
  falsePositive : Nat
  candidates : Nat
  candidatesSent : Nat
  candidatesClassifiedByAI : Nat
  candidatesSavedAsFalsePositive : Nat
  candidatesSavedAsConfirmed : Nat
  candidatesOtherPrediction : Nat
  errors : Nat
  errorDetails : List ErrorDetail
deriving DecidableEq

/-- The `status: inferResult.status || 'unknown'` field of an inference
error detail (a JavaScript number or the string, modelled as the
rendered string). -/
def statusOrUnknown (st : Option Nat) : String :=
  match st with
  | some s => if s = 0 then "unknown" else Nat.repr s
  | none => "unknown"

/-- `NasaSyncService.getExistingKepOINames`: the stored identities with
falsy values filtered out (a Set is only ever queried for membership, so
a list with `contains` models it). -/
def getExistingKepOINames (store : List KOIRecord) : List String :=
  (store.map (fun r => r.kepoi_name)).filter (fun name => name ≠ "")

/-- The dataset differ of `synchronizeKOIData` step 3: remote entries
with a truthy identity not already present locally, in remote order. -/
def filterNewEntries (remote : List KOIEntry) (existing : List String) : List KOIEntry :=
  remote.filter (fun e => e.kepoi_name ≠ "" && !(existing.contains e.kepoi_name))

/-- The per-record dispatch of `synchronizeKOIData` step 4, one loop
iteration: decided statuses are fetched in full and persisted as-is,
candidates go through the gateway, anything else is an unknown status.
The per-record try/catch is modelled by the error branch of the full
fetch, the only model operation that can fail inside the loop body. -/
def processEntry (env : SyncEnv) (acc : List KOIRecord × SyncStats)
    (e : KOIEntry) : List KOIRecord × SyncStats :=
  let store := acc.1
  let stats := acc.2
  let disposition := e.koi_disposition.map upperStr
  if disposition = some "CONFIRMED" ∨ disposition = some "FALSE POSITIVE" then
    match env.fetchFull e.kepoi_name with
    | .error msg =>
      (store,
       { stats with
         errors := stats.errors + 1,
         errorDetails := stats.errorDetails ++
           [⟨some e.kepoi_name, "processing_error", msg, none⟩] })
    | .ok completeKOIData =>
      let store2 := store ++ [recordOfFull completeKOIData]
      if disposition = some "CONFIRMED" then
        (store2, { stats with confirmed := stats.confirmed + 1 })
      else
        (store2, { stats with falsePositive := stats.falsePositive + 1 })
  else if disposition = some "CANDIDATE" then
    let stats2 := { stats with candidates := stats.candidates + 1 }
    let sent := sendCandidateToInferAPI env store e.kepoi_name
    let inferResult := sent.1
    let store2 := sent.2
    if inferResult.success then
      let stats3 :=
        { stats2 with
          candidatesSent := stats2.candidatesSent + 1,
          candidatesClassifiedByAI := stats2.candidatesClassifiedByAI + 1 }
      if inferResult.action = some "saved_as_false_positive" then
        (store2,
         { stats3 with
           candidatesSavedAsFalsePositive := stats3.candidatesSavedAsFalsePositive + 1,
           falsePositive := stats3.falsePositive + 1 })
      else if inferResult.action = some "saved_as_confirmed" then
        (store2,
         { stats3 with
           candidatesSavedAsConfirmed := stats3.candidatesSavedAsConfirmed + 1,
           confirmed := stats3.confirmed + 1 })
      else if inferResult.action = some "prediction_received" ∨
          inferResult.action = some "prediction_not_supported" then
        (store2,
         { stats3 with
           candidatesOtherPrediction := stats3.candidatesOtherPrediction + 1 })
      else (store2, stats3)
    else
      (store2,
       { stats2 with
         errors := stats2.errors + 1,
         errorDetails := stats2.errorDetails ++
           [⟨some e.kepoi_name, "infer_api_error", inferResult.error.getD "",
             some (statusOrUnknown inferResult.status)⟩] })
  else
    (store,
     { stats with
       errors := stats.errors + 1,
       errorDetails := stats.errorDetails ++
         [⟨some e.kepoi_name, "unknown_disposition",
           "Unknown status: " ++ (disposition.getD "undefined"), none⟩] })

/-- `NasaSyncService.synchronizeKOIData`: one full pass.  A differ-level
failure escalates (the outer catch rethrows); inside the loop every
failure is absorbed per record.  Returns the final counters and store. -/
def synchronizeKOIData (env : SyncEnv) (store : List KOIRecord) :
    Except String (SyncStats × List KOIRecord) :=
  match env.fetchNames with
  | .error msg => .error msg
  | .ok nasaKepOINames =>
    let newKepOIEntries := filterNewEntries nasaKepOINames (getExistingKepOINames store)
    let stats1 : SyncStats :=
      ⟨nasaKepOINames.length, newKepOIEntries.length, 0, 0, 0, 0, 0, 0, 0, 0, 0, []⟩
    if newKepOIEntries.isEmpty then .ok (stats1, store)
    else
      let final := newKepOIEntries.foldl (processEntry env) (store, stats1)
      .ok (final.2, final.1)

/-- One entry of the `sync_logs` collection: the stats object of a
successful pass, or the error record `executeSyncTask` writes on
failure. -/
inductive PassLog where
  | pass (stats : SyncStats)
  | failure (error : String)
deriving DecidableEq

/-- The static mutable state of `SchedulerService` relevant to the
single-flight guard, plus the pass log collection. -/
structure SchedulerState where
  isRunning : Bool
  lastRunSet : Bool
  syncLogs : List PassLog
deriving DecidableEq

/-- `SchedulerService.executeSyncTask`: skip silently when a pass is
running, otherwise raise the guard, run the pass, log its outcome and
release the guard in the finally block on both the success and the
failure path. -/
def executeSyncTask (st : SchedulerState) (env : SyncEnv) (store : List KOIRecord) :
    Except String (Option SyncStats) × SchedulerState × List KOIRecord :=
  if st.isRunning then (.ok none, st, store)
  else
    match synchronizeKOIData env store with
    | .ok (stats, store2) =>
      (.ok (some stats),
       ⟨false, true, st.syncLogs ++ [.pass stats]⟩, store2)
    | .error msg =>
      (.error msg,
       ⟨false, true, st.syncLogs ++ [.failure msg]⟩, store)

/-- `SchedulerService.runSyncNow`: reject with the conflict error while
a pass is running, otherwise delegate to `executeSyncTask`. -/
def runSyncNow (st : SchedulerState) (env : SyncEnv) (store : List KOIRecord) :
    Except String (Option SyncStats) × SchedulerState × List KOIRecord :=
  if st.isRunning then
    (.error "A synchronization is already in progress", st, store)
  else executeSyncTask st env store

instance {e a : Type} [DecidableEq e] [DecidableEq a] : DecidableEq (Except e a) :=
  fun x y =>
    match x, y with
    | .error u, .error v =>
      if h : u = v then isTrue (by rw [h]) else isFalse (fun hc => by cases hc; exact h rfl)
    | .ok u, .ok v =>
      if h : u = v then isTrue (by rw [h]) else isFalse (fun hc => by cases hc; exact h rfl)
    | .error _, .ok _ => isFalse (fun hc => by cases hc)
    | .ok _, .error _ => isFalse (fun hc => by cases hc)

/-- The lowercase ASCII letters, the letter range of a well-formed
Kepler name. -/
def azLetters : List Char := 'a' :: alphabetLetters

/-- A well-formed assigned name: exactly the shape the allocator (and
the NASA archive) produce, a numeric label and a lowercase letter. -/
def IsCanonicalKeplerName (s : String) : Prop :=
  ∃ n letter, letter ∈ azLetters ∧ s = mkKeplerName n letter

/-- Fuel-driven power of ten matching the digit count of a number
(specification device for the decimal rendering lemmas). -/
def tenPowGo : Nat → Nat → Nat
  | 0, _ => 1
  | fuel + 1, n => if n = 0 then 1 else 10 * tenPowGo fuel (n / 10)

/-- Power of ten with the same recursion pattern as `natReprGo`. -/
def tenPow (n : Nat) : Nat := tenPowGo n n

/-- Claim-side reading of the maximum numeric label in use across the
entire store among all assigned names (zero when none is assigned). -/
def maxAssignedLabel (store : List KOIRecord) : Nat :=
  ((store.filterMap (fun r => r.kepler_name)).map
    (fun kn => (extractKeplerNumber kn).getD 0)).foldl max 0

/-- Claim-side invariant: every automation-classified record persisted
with status Confirmed carries an assigned name. -/
def AiConfirmedHasName (store : List KOIRecord) : Prop :=
  ∀ r ∈ store, r.is_ai = true → r.koi_disposition = some "CONFIRMED" → r.kepler_name ≠ none

/-- The spec-worded dataset differ, for comparison with the code's
`filterNewEntries`: keep exactly the remote entries whose identity is
absent from the local set. -/
def specDiffer (remote : List KOIEntry) (existing : List String) : List KOIEntry :=
  remote.filter (fun e => !(existing.contains e.kepoi_name))

/-! ### Letter-allocation lemmas -/

theorem contains_iff_mem {α : Type} [BEq α] [LawfulBEq α] {c : α} {l : List α} :
    l.contains c = true ↔ c ∈ l := by
  simp [List.contains]

theorem nextLetterLoop_all_used :
    ∀ (l used : List Char), (∀ c ∈ l, c ∈ used) → nextLetterLoop l used = 'z' := by
  intro l
  induction l with
  | nil => intro used _; rfl
  | cons c rest ih =>
    intro used h
    have hc : used.contains c = true := contains_iff_mem.mpr (h c (by simp))
    show (if used.contains c = true then nextLetterLoop rest used else c) = 'z'
    rw [if_pos hc]
    exact ih used (fun d hd => h d (by simp [hd]))

theorem nextLetterLoop_firstUnused :
    ∀ (l used : List Char), (∃ c ∈ l, c ∉ used) →
      ∃ l1 l2, l = l1 ++ nextLetterLoop l used :: l2 ∧ (∀ c ∈ l1, c ∈ used) ∧
        nextLetterLoop l used ∉ used := by
  intro l
  induction l with
  | nil =>
    rintro used ⟨c, hc, _⟩
    simp at hc
  | cons c rest ih =>
    rintro used ⟨d, hd, hdu⟩
    by_cases hc : c ∈ used
    · have hcb : used.contains c = true := contains_iff_mem.mpr hc
      have hrec : ∃ e ∈ rest, e ∉ used := by
        rcases List.mem_cons.mp hd with h | h
        · exact absurd (h ▸ hc) hdu
        · exact ⟨d, h, hdu⟩
      obtain ⟨l1, l2, heq, hl1, hnl⟩ := ih used hrec
      have hloop : nextLetterLoop (c :: rest) used = nextLetterLoop rest used := by
        show (if used.contains c = true then nextLetterLoop rest used else c) = _
        rw [if_pos hcb]
      refine ⟨c :: l1, l2, ?_, ?_, ?_⟩
      · rw [hloop]; simpa using congrArg (c :: ·) heq
      · intro e he
        rcases List.mem_cons.mp he with h | h
        · exact h ▸ hc
        · exact hl1 e h
      · rw [hloop]; exact hnl
    · have hcb : used.contains c = false := by
        cases h : used.contains c
        · rfl
        · exact absurd (contains_iff_mem.mp h) hc
      have hloop : nextLetterLoop (c :: rest) used = c := by
        show (if used.contains c = true then nextLetterLoop rest used else c) = c
        rw [hcb]; simp
      exact ⟨[], rest, by rw [hloop]; rfl, by simp, by rw [hloop]; exact hc⟩

theorem getNextAvailableLetter_nil : getNextAvailableLetter [] = 'b' := by decide

/-! ### Decimal-rendering lemmas -/

theorem digitChar_isDigit {m : Nat} (h : m < 10) : (Char.ofNat (48 + m)).isDigit = true := by
  interval_cases m <;> decide

theorem digitVal_digitChar {m : Nat} (h : m < 10) : digitVal (Char.ofNat (48 + m)) = m := by
  interval_cases m <;> decide

theorem natReprGo_shape :
    ∀ (fuel n : Nat) (acc : List Char), ∃ ds, natReprGo fuel n acc = ds ++ acc ∧
      ∀ c ∈ ds, c.isDigit = true := by
  intro fuel
  induction fuel with
  | zero => intro n acc; exact ⟨[], rfl, by simp⟩
  | succ fuel ih =>
    intro n acc
    by_cases hn : n = 0
    · refine ⟨[], ?_, by simp⟩
      simp [natReprGo, hn]
    · obtain ⟨ds, heq, hds⟩ := ih (n / 10) (Char.ofNat (48 + n % 10) :: acc)
      refine ⟨ds ++ [Char.ofNat (48 + n % 10)], ?_, ?_⟩
      · show natReprGo (fuel + 1) n acc = _
        simp only [natReprGo, if_neg hn]
        rw [heq]; simp
      · intro c hc
        rcases List.mem_append.mp hc with h | h
        · exact hds c h
        · have : c = Char.ofNat (48 + n % 10) := by simpa using h
          subst this
          exact digitChar_isDigit (Nat.mod_lt _ (by norm_num))

theorem natReprList_digits (n : Nat) : ∀ c ∈ natReprList n, c.isDigit = true := by
  by_cases hn : n = 0
  · subst hn; intro c hc; simp [natReprList] at hc; subst hc; decide
  · intro c hc
    obtain ⟨ds, heq, hds⟩ := natReprGo_shape n n []
    rw [natReprList, if_neg hn, heq] at hc
    simp at hc
    exact hds c hc

theorem natReprList_ne_nil (n : Nat) : natReprList n ≠ [] := by
  by_cases hn : n = 0
  · subst hn; simp [natReprList]
  · rw [natReprList, if_neg hn]
    cases n with
    | zero => exact absurd rfl hn
    | succ m =>
      show natReprGo (m + 1) (m + 1) [] ≠ []
      simp only [natReprGo, if_neg (Nat.succ_ne_zero m)]
      obtain ⟨ds, heq, _⟩ := natReprGo_shape m ((m + 1) / 10) [Char.ofNat (48 + (m + 1) % 10)]
      rw [heq]; simp

theorem tenPowGo_zero (fuel : Nat) : tenPowGo fuel 0 = 1 := by cases fuel <;> rfl

theorem tenPowGo_stable :
    ∀ (f1 f2 n : Nat), n ≤ f1 → n ≤ f2 → tenPowGo f1 n = tenPowGo f2 n := by
  intro f1
  induction f1 with
  | zero =>
    intro f2 n h1 _
    interval_cases n
    rw [tenPowGo_zero, tenPowGo_zero]
  | succ f1 ih =>
    intro f2 n h1 h2
    by_cases hn : n = 0
    · subst hn; rw [tenPowGo_zero, tenPowGo_zero]
    · cases f2 with
      | zero => omega
      | succ f2 =>
        have hlt : n / 10 < n := Nat.div_lt_self (Nat.pos_of_ne_zero hn) (by norm_num)
        simp only [tenPowGo, if_neg hn]
        rw [ih f2 (n / 10) (by omega) (by omega)]

theorem tenPow_succ {n : Nat} (hn : n ≠ 0) : tenPow n = 10 * tenPow (n / 10) := by
  cases n with
  | zero => exact absurd rfl hn
  | succ m =>
    show tenPowGo (m + 1) (m + 1) = 10 * tenPow ((m + 1) / 10)
    have hlt : (m + 1) / 10 < m + 1 := Nat.div_lt_self (Nat.succ_pos m) (by norm_num)
    simp only [tenPowGo, if_neg (Nat.succ_ne_zero m)]
    rw [tenPowGo_stable m ((m + 1) / 10) ((m + 1) / 10) (by omega) le_rfl]
    rfl

theorem natReprGo_foldl :
    ∀ (fuel n : Nat), n ≤ fuel → ∀ (acc : List Char) (k : Nat),
      List.foldl pStep k (natReprGo fuel n acc) =
        List.foldl pStep (k * tenPow n + n) acc := by
  intro fuel
  induction fuel with
  | zero =>
    intro n hn acc k
    interval_cases n
    show List.foldl pStep k acc = List.foldl pStep (k * tenPow 0 + 0) acc
    rw [show tenPow 0 = 1 from rfl]
    simp
  | succ fuel ih =>
    intro n hn acc k
    by_cases h0 : n = 0
    · subst h0
      show List.foldl pStep k acc = List.foldl pStep (k * tenPow 0 + 0) acc
      rw [show tenPow 0 = 1 from rfl]
      simp
    · have hlt : n / 10 < n := Nat.div_lt_self (Nat.pos_of_ne_zero h0) (by norm_num)
      have hle : n / 10 ≤ fuel := by omega
      simp only [natReprGo, if_neg h0]
      rw [ih (n / 10) hle]
      simp only [List.foldl_cons]
      have hd : digitVal (Char.ofNat (48 + n % 10)) = n % 10 :=
        digitVal_digitChar (Nat.mod_lt _ (by norm_num))
      have harith : pStep (k * tenPow (n / 10) + n / 10) (Char.ofNat (48 + n % 10)) =
          k * tenPow n + n := by
        unfold pStep
        rw [hd, tenPow_succ h0]
        have h1 : (k * tenPow (n / 10) + n / 10) * 10 + n % 10 =
            k * (10 * tenPow (n / 10)) + (n / 10 * 10 + n % 10) := by ring
        have h2 : n / 10 * 10 + n % 10 = n := by omega
        rw [h1, h2]
      rw [harith]

theorem parseDigits_natReprList (n : Nat) : parseDigits (natReprList n) = n := by
  by_cases h0 : n = 0
  · subst h0; decide
  · unfold parseDigits natReprList
    rw [if_neg h0, natReprGo_foldl n n le_rfl [] 0]
    simp

theorem takeDigits_digits_append :
    ∀ (ds rest : List Char), (∀ c ∈ ds, c.isDigit = true) →
      (∀ c, rest.head? = some c → c.isDigit = false) →
      takeDigits (ds ++ rest) = (ds, rest) := by
  intro ds
  induction ds with
  | nil =>
    intro rest _ hrest
    cases rest with
    | nil => rfl
    | cons c cs => simp [takeDigits, hrest c rfl]
  | cons c cs ih =>
    intro rest hds hrest
    have hc : c.isDigit = true := hds c (by simp)
    have htail := ih rest (fun d hd => hds d (by simp [hd])) hrest
    show takeDigits (c :: (cs ++ rest)) = (c :: cs, rest)
    unfold takeDigits
    rw [if_pos hc, htail]

theorem stripCI_keplerLit (t : List Char) :
    stripCI keplerLit (['K', 'e', 'p', 'l', 'e', 'r', '-'] ++ t) = some t := rfl

theorem matchKeplerAt_eq {s t : List Char} (h : stripCI keplerLit s = some t) :
    matchKeplerAt s =
      match takeDigits t with
      | ([], _) => none
      | (ds, rest2) => some (parseDigits ds, rest2) := by
  unfold matchKeplerAt
  rw [h]

theorem matchKeplerAt_mkKeplerName (n : Nat) (letter : Char) :
    matchKeplerAt (mkKeplerName n letter).data = some (n, [' ', letter]) := by
  have hstrip : stripCI keplerLit (mkKeplerName n letter).data =
      some (natReprList n ++ [' ', letter]) := by
    show stripCI keplerLit ((['K', 'e', 'p', 'l', 'e', 'r', '-'] ++ natReprList n) ++
      [' ', letter]) = _
    rw [List.append_assoc]
    exact stripCI_keplerLit _
  rw [matchKeplerAt_eq hstrip]
  rw [takeDigits_digits_append (natReprList n) [' ', letter] (natReprList_digits n)
    (by intro c hc; simp at hc; subst hc; decide)]
  cases hnl : natReprList n with
  | nil => exact absurd hnl (natReprList_ne_nil n)
  | cons d ds =>
    show some (parseDigits (d :: ds), [' ', letter]) = some (n, [' ', letter])
    rw [← hnl, parseDigits_natReprList]

theorem scanKepler_cons_of_match {c : Char} {cs : List Char} {r : Nat × List Char}
    (h : matchKeplerAt (c :: cs) = some r) : scanKepler (c :: cs) = some r := by
  show (match matchKeplerAt (c :: cs) with
    | some r => some r
    | none => scanKepler cs) = some r
  rw [h]

theorem extractKeplerNumber_mkKeplerName (n : Nat) (letter : Char) :
    extractKeplerNumber (mkKeplerName n letter) = some n := by
  unfold extractKeplerNumber
  have hdata : (mkKeplerName n letter).data =
      'K' :: ((['e', 'p', 'l', 'e', 'r', '-'] ++ natReprList n) ++ [' ', letter]) := rfl
  have hm := matchKeplerAt_mkKeplerName n letter
  rw [hdata] at hm ⊢
  rw [scanKepler_cons_of_match hm]
  rfl

theorem matchesKeplerStart_mkKeplerName (n : Nat) (letter : Char) :
    matchesKeplerStart (mkKeplerName n letter) = true := by
  unfold matchesKeplerStart
  rw [matchKeplerAt_mkKeplerName]
  rfl

theorem azLetters_facts :
    ∀ c ∈ azLetters, isAsciiLetterChar c = true ∧ c.toLower = c ∧
      isSpaceChar c = false ∧ c.isDigit = false := by decide

theorem matchKeplerLetterAt_eq {s t : List Char} (h : stripCI keplerLit s = some t) :
    matchKeplerLetterAt s =
      match takeDigits t with
      | ([], _) => none
      | (_, rest2) =>
        match takeSpaces rest2 with
        | ([], _) => none
        | (_, rest3) =>
          match rest3 with
          | [] => none
          | c :: _ => if isAsciiLetterChar c then some c.toLower else none := by
  unfold matchKeplerLetterAt
  rw [h]

theorem matchKeplerLetterAt_mkKeplerName (n : Nat) (letter : Char)
    (hl : letter ∈ azLetters) :
    matchKeplerLetterAt (mkKeplerName n letter).data = some letter := by
  obtain ⟨hla, hlow, hsp, _⟩ := azLetters_facts letter hl
  have hstrip : stripCI keplerLit (mkKeplerName n letter).data =
      some (natReprList n ++ [' ', letter]) := by
    show stripCI keplerLit ((['K', 'e', 'p', 'l', 'e', 'r', '-'] ++ natReprList n) ++
      [' ', letter]) = _
    rw [List.append_assoc]
    exact stripCI_keplerLit _
  rw [matchKeplerLetterAt_eq hstrip]
  rw [takeDigits_digits_append (natReprList n) [' ', letter] (natReprList_digits n)
    (by intro c hc; simp at hc; subst hc; decide)]
  cases hnl : natReprList n with
  | nil => exact absurd hnl (natReprList_ne_nil n)
  | cons d ds =>
    have hsp2 : takeSpaces [' ', letter] = ([' '], [letter]) := by
      show takeSpaces (' ' :: [letter]) = ([' '], [letter])
      unfold takeSpaces
      rw [if_pos (by decide : isSpaceChar ' ' = true)]
      unfold takeSpaces
      rw [if_neg (by rw [hsp]; exact Bool.false_ne_true)]
    show (match takeSpaces [' ', letter] with
      | ([], _) => none
      | (_, rest3) =>
        match rest3 with
        | [] => none
        | c :: _ => if isAsciiLetterChar c then some c.toLower else none) = some letter
    rw [hsp2]
    show (if isAsciiLetterChar letter then some letter.toLower else none) = some letter
    rw [if_pos (by rw [hla] : isAsciiLetterChar letter = true), hlow]

theorem scanKeplerLetter_cons_of_match {c : Char} {cs : List Char} {r : Char}
    (h : matchKeplerLetterAt (c :: cs) = some r) : scanKeplerLetter (c :: cs) = some r := by
  show (match matchKeplerLetterAt (c :: cs) with
    | some r => some r
    | none => scanKeplerLetter cs) = some r
  rw [h]

theorem extractKeplerLetter_mkKeplerName (n : Nat) (letter : Char)
    (hl : letter ∈ azLetters) :
    extractKeplerLetter (mkKeplerName n letter) = some letter := by
  unfold extractKeplerLetter
  have hdata : (mkKeplerName n letter).data =
      'K' :: ((['e', 'p', 'l', 'e', 'r', '-'] ++ natReprList n) ++ [' ', letter]) := rfl
  have hm := matchKeplerLetterAt_mkKeplerName n letter hl
  rw [hdata] at hm ⊢
  rw [scanKeplerLetter_cons_of_match hm]

/-! ### Kepler-group lemmas -/

theorem insertGroup_ne_nil : ∀ (g : List (Nat × List Char)) (n : Nat) (l : Option Char),
    insertGroup g n l ≠ [] := by
  intro g n l
  match g with
  | [] => simp [insertGroup]
  | (m, ls) :: rest =>
    unfold insertGroup
    split <;> simp

theorem insertGroup_keys : ∀ (g : List (Nat × List Char)) (n : Nat) (l : Option Char),
    (insertGroup g n l).map Prod.fst =
      if n ∈ g.map Prod.fst then g.map Prod.fst else g.map Prod.fst ++ [n] := by
  intro g
  induction g with
  | nil => intro n l; simp [insertGroup]
  | cons p rest ih =>
    intro n l
    obtain ⟨m, ls⟩ := p
    by_cases h : m = n
    · subst h
      unfold insertGroup
      rw [if_pos rfl]
      simp
    · unfold insertGroup
      rw [if_neg h]
      simp only [List.map_cons]
      rw [ih n l]
      by_cases h2 : n ∈ rest.map Prod.fst
      · rw [if_pos h2, if_pos (by simp [h2])]
      · rw [if_neg h2, if_neg (by
          simp only [List.map_cons, List.mem_cons]
          rintro (hc | hc)
          · exact h hc.symm
          · exact h2 hc)]
        simp

theorem insertGroup_keys_nodup {g : List (Nat × List Char)}
    (hg : (g.map Prod.fst).Nodup) (n : Nat) (l : Option Char) :
    ((insertGroup g n l).map Prod.fst).Nodup := by
  rw [insertGroup_keys]
  by_cases h : n ∈ g.map Prod.fst
  · rw [if_pos h]; exact hg
  · rw [if_neg h]
    refine List.Nodup.append hg (List.nodup_singleton n) ?_
    intro a ha hb
    simp at hb
    subst hb
    exact h ha

theorem buildStep_keys_nodup {g : List (Nat × List Char)}
    (hg : (g.map Prod.fst).Nodup) (koi : KOIRecord) :
    ((buildStep g koi).map Prod.fst).Nodup := by
  unfold buildStep
  split
  · exact hg
  · split
    · exact hg
    · split
      · exact hg
      · exact insertGroup_keys_nodup hg _ _

theorem buildKeplerGroups_keys_nodup (similars : List KOIRecord) :
    ((buildKeplerGroups similars).map Prod.fst).Nodup := by
  unfold buildKeplerGroups
  have main : ∀ (l : List KOIRecord) (g : List (Nat × List Char)),
      (g.map Prod.fst).Nodup → ((l.foldl buildStep g).map Prod.fst).Nodup := by
    intro l
    induction l with
    | nil => intro g hg; exact hg
    | cons k rest ih => intro g hg; exact ih _ (buildStep_keys_nodup hg k)
  exact main similars [] (by simp)

theorem buildStep_ne_nil {g : List (Nat × List Char)} (hg : g ≠ []) (koi : KOIRecord) :
    buildStep g koi ≠ [] := by
  unfold buildStep
  split
  · exact hg
  · split
    · exact hg
    · split
      · exact hg
      · exact insertGroup_ne_nil _ _ _

theorem buildStep_contrib {g : List (Nat × List Char)} {r : KOIRecord} {kn : String}
    {n : Nat} (hkn : r.kepler_name = some kn) (hn : extractKeplerNumber kn = some n)
    (hn0 : n ≠ 0) : buildStep g r = insertGroup g n (extractKeplerLetter kn) := by
  simp only [buildStep, hkn, hn, if_neg hn0]

theorem buildStep_unnamed {g : List (Nat × List Char)} {r : KOIRecord}
    (h : r.kepler_name = none) : buildStep g r = g := by
  simp only [buildStep, h]

theorem foldl_buildStep_ne_nil :
    ∀ (l : List KOIRecord) (g : List (Nat × List Char)), g ≠ [] →
      l.foldl buildStep g ≠ [] := by
  intro l
  induction l with
  | nil => intro g hg; exact hg
  | cons k rest ih =>
    intro g hg
    exact ih _ (buildStep_ne_nil hg k)

theorem buildKeplerGroups_ne_nil {similars : List KOIRecord}
    (h : ∃ r ∈ similars, ∃ kn, r.kepler_name = some kn ∧
      ∃ n, extractKeplerNumber kn = some n ∧ n ≠ 0) :
    buildKeplerGroups similars ≠ [] := by
  unfold buildKeplerGroups
  have main : ∀ (l : List KOIRecord) (g : List (Nat × List Char)),
      (∃ r ∈ l, ∃ kn, r.kepler_name = some kn ∧
        ∃ n, extractKeplerNumber kn = some n ∧ n ≠ 0) →
      l.foldl buildStep g ≠ [] := by
    intro l
    induction l with
    | nil =>
      rintro g ⟨r, hr, _⟩
      simp at hr
    | cons k rest ih =>
      rintro g ⟨r, hr, kn, hkn, n, hn, hn0⟩
      rcases List.mem_cons.mp hr with heq | hmem
      · subst heq
        rw [List.foldl_cons, buildStep_contrib hkn hn hn0]
        exact foldl_buildStep_ne_nil rest _ (insertGroup_ne_nil _ _ _)
      · exact ih _ ⟨r, hmem, kn, hkn, n, hn, hn0⟩
  obtain ⟨r, hr, kn, hkn, n, hn, hn0⟩ := h
  exact main similars [] ⟨r, hr, kn, hkn, n, hn, hn0⟩

theorem buildKeplerGroups_unnamed {similars : List KOIRecord}
    (h : ∀ r ∈ similars, r.kepler_name = none) : buildKeplerGroups similars = [] := by
  unfold buildKeplerGroups
  have main : ∀ (l : List KOIRecord) (g : List (Nat × List Char)),
      (∀ r ∈ l, r.kepler_name = none) → l.foldl buildStep g = g := by
    intro l
    induction l with
    | nil => intro g _; rfl
    | cons k rest ih =>
      intro g hl
      simp only [List.foldl_cons, buildStep_unnamed (hl k (by simp))]
      exact ih g (fun r hr => hl r (by simp [hr]))
  exact main similars [] h

theorem mem_insertSorted {x n : Nat} :
    ∀ (l : List Nat), x ∈ insertSorted n l ↔ x = n ∨ x ∈ l := by
  intro l
  induction l with
  | nil => simp [insertSorted]
  | cons m ms ih =>
    unfold insertSorted
    by_cases h : n ≤ m
    · rw [if_pos h]; simp
    · rw [if_neg h]
      simp only [List.mem_cons, ih]
      tauto

theorem mem_sortKeys {x : Nat} : ∀ (l : List Nat), x ∈ sortKeys l ↔ x ∈ l := by
  intro l
  induction l with
  | nil => simp [sortKeys]
  | cons m ms ih =>
    show x ∈ insertSorted m (sortKeys ms) ↔ _
    rw [mem_insertSorted]
    simp only [List.mem_cons, ih]

theorem sortKeys_ne_nil {l : List Nat} (h : l ≠ []) : sortKeys l ≠ [] := by
  cases l with
  | nil => exact absurd rfl h
  | cons m ms =>
    intro hc
    have hm : m ∈ sortKeys (m :: ms) := (mem_sortKeys _).mpr (by simp)
    rw [hc] at hm
    simp at hm

theorem lookupGroup_mem {groups : List (Nat × List Char)} {n : Nat}
    (h : n ∈ groups.map Prod.fst) : (n, lookupGroup groups n) ∈ groups := by
  induction groups with
  | nil => simp at h
  | cons p rest ih =>
    obtain ⟨m, ls⟩ := p
    by_cases hm : m = n
    · subst hm
      unfold lookupGroup
      rw [List.find?_cons_of_pos _ (by simp)]
      simp
    · unfold lookupGroup
      rw [List.find?_cons_of_neg _ (by simp [hm])]
      have hrest : n ∈ rest.map Prod.fst := by
        simp only [List.map_cons, List.mem_cons] at h
        rcases h with h | h
        · exact absurd h.symm hm
        · exact h
      have := ih hrest
      unfold lookupGroup at this
      right
      exact this

theorem lookupGroup_eq_of_mem_nodup {groups : List (Nat × List Char)}
    (hnd : (groups.map Prod.fst).Nodup) {p : Nat × List Char} (hp : p ∈ groups) :
    lookupGroup groups p.1 = p.2 := by
  induction groups with
  | nil => simp at hp
  | cons q rest ih =>
    obtain ⟨m, ls⟩ := q
    simp only [List.map_cons, List.nodup_cons] at hnd
    rcases List.mem_cons.mp hp with heq | hmem
    · subst heq
      unfold lookupGroup
      rw [List.find?_cons_of_pos _ (by simp)]
    · have hm : ¬(m = p.1) := by
        intro hc
        exact hnd.1 (hc ▸ List.mem_map_of_mem Prod.fst hmem)
      unfold lookupGroup
      rw [List.find?_cons_of_neg _ (by simp [hm])]
      exact ih hnd.2 hmem

theorem pickMax_spec (f : Nat → Nat) :
    ∀ (ks : List Nat) (k0 : Nat),
      pickMax f k0 ks ∈ k0 :: ks ∧ ∀ k ∈ k0 :: ks, f k ≤ f (pickMax f k0 ks) := by
  intro ks
  induction ks with
  | nil =>
    intro k0
    refine ⟨by simp [pickMax], ?_⟩
    intro k hk
    simp at hk
    subst hk
    exact le_rfl
  | cons k1 rest ih =>
    intro k0
    by_cases hc : f k1 < f k0
    · have hstep : pickMax f k0 (k1 :: rest) = pickMax f k0 rest := by
        unfold pickMax
        simp only [List.foldl_cons, if_pos hc]
      obtain ⟨hmem, hmax⟩ := ih k0
      rw [hstep]
      constructor
      · rcases List.mem_cons.mp hmem with h | h
        · simp [h]
        · simp [h]
      · intro k hk
        rcases List.mem_cons.mp hk with h | h
        · subst h; exact hmax k (by simp)
        · rcases List.mem_cons.mp h with h2 | h2
          · subst h2; exact le_trans (le_of_lt hc) (hmax k0 (by simp))
          · exact hmax k (by simp [h2])
    · have hstep : pickMax f k0 (k1 :: rest) = pickMax f k1 rest := by
        unfold pickMax
        simp only [List.foldl_cons, if_neg hc]
      obtain ⟨hmem, hmax⟩ := ih k1
      rw [hstep]
      constructor
      · rcases List.mem_cons.mp hmem with h | h
        · simp [h]
        · simp [h]
      · intro k hk
        rcases List.mem_cons.mp hk with h | h
        · subst h
          exact le_trans (Nat.le_of_not_lt hc) (hmax k1 (by simp))
        · rcases List.mem_cons.mp h with h2 | h2
          · subst h2; exact hmax k (by simp)
          · exact hmax k (by simp [h2])

/-! ### Last-Kepler-name and allocator case lemmas -/

theorem lastStep_foldl :
    ∀ (ns : List String) (a : Nat) (s : Option String),
      (∀ t, s = some t → extractKeplerNumber t = some a) →
      (s = none → a = 0) →
      ((ns.foldl lastStep (a, s)).1 =
          ns.foldl (fun m kn => max m ((extractKeplerNumber kn).getD 0)) a ∧
        (∀ t, (ns.foldl lastStep (a, s)).2 = some t →
          extractKeplerNumber t = some (ns.foldl lastStep (a, s)).1) ∧
        ((ns.foldl lastStep (a, s)).2 = none → (ns.foldl lastStep (a, s)).1 = 0)) := by
  intro ns
  induction ns with
  | nil =>
    intro a s h1 h2
    exact ⟨rfl, h1, h2⟩
  | cons kn rest ih =>
    intro a s h1 h2
    simp only [List.foldl_cons]
    cases hext : extractKeplerNumber kn with
    | none =>
      have hstep : lastStep (a, s) kn = (a, s) := by simp only [lastStep, hext]
      have hmax : max a ((none : Option Nat).getD 0) = a := by simp
      rw [hstep, hmax]
      exact ih a s h1 h2
    | some n =>
      by_cases hcond : n ≠ 0 ∧ a < n
      · have hstep : lastStep (a, s) kn = (n, some kn) := by
          simp only [lastStep, hext, if_pos hcond]
        have hmax : max a ((some n : Option Nat).getD 0) = n := by
          simp only [Option.getD_some]
          exact Nat.max_eq_right (le_of_lt hcond.2)
        rw [hstep, hmax]
        refine ih n (some kn) (fun t ht => ?_) (fun hc => by cases hc)
        injection ht with ht2
        rw [← ht2]
        exact hext
      · have hstep : lastStep (a, s) kn = (a, s) := by
          simp only [lastStep, hext, if_neg hcond]
        have hmax : max a ((some n : Option Nat).getD 0) = a := by
          simp only [Option.getD_some]
          by_cases hz : n = 0
          · subst hz; simp
          · have : ¬ a < n := fun hlt => hcond ⟨hz, hlt⟩
            exact Nat.max_eq_left (Nat.le_of_not_lt this)
        rw [hstep, hmax]
        exact ih a s h1 h2

theorem findLastKeplerName_spec {store : List KOIRecord}
    (hcanon : ∀ r ∈ store, ∀ kn, r.kepler_name = some kn → IsCanonicalKeplerName kn) :
    (findLastKeplerName store = none → maxAssignedLabel store = 0) ∧
    (∀ t, findLastKeplerName store = some t →
      extractKeplerNumber t = some (maxAssignedLabel store)) := by
  have hnames : ∀ kn ∈ store.filterMap (fun r => r.kepler_name),
      IsCanonicalKeplerName kn := by
    intro kn hkn
    obtain ⟨r, hr, hrkn⟩ := List.mem_filterMap.mp hkn
    exact hcanon r hr kn hrkn
  have hfilter : (store.filterMap (fun r => r.kepler_name)).filter matchesKeplerStart =
      store.filterMap (fun r => r.kepler_name) := by
    apply List.filter_eq_self.mpr
    intro kn hkn
    obtain ⟨n, letter, _, heq⟩ := hnames kn hkn
    rw [heq]
    exact matchesKeplerStart_mkKeplerName n letter
  unfold findLastKeplerName
  rw [hfilter]
  cases hns : store.filterMap (fun r => r.kepler_name) with
  | nil =>
    have hmax : maxAssignedLabel store = 0 := by
      unfold maxAssignedLabel
      rw [hns]
      rfl
    simp [hmax]
  | cons kn0 rest =>
    simp only [List.isEmpty_cons, Bool.false_eq_true, if_false]
    obtain ⟨hfst, hsnd, hnone⟩ :=
      lastStep_foldl (kn0 :: rest) 0 none (fun t ht => by cases ht) (fun _ => rfl)
    have hmaxeq : maxAssignedLabel store =
        ((kn0 :: rest).foldl lastStep (0, none)).1 := by
      unfold maxAssignedLabel
      rw [hns, List.foldl_map, hfst]
    constructor
    · intro h
      rw [hmaxeq]
      exact hnone h
    · intro t ht
      rw [hmaxeq]
      exact hsnd t ht

theorem generateKeplerName_caseB {store : List KOIRecord} {kepoi_name : String}
    (hcanon : ∀ r ∈ store, ∀ kn, r.kepler_name = some kn → IsCanonicalKeplerName kn)
    (hnone : buildKeplerGroups (findSimilarKOIs store (extractKOIBase kepoi_name)) = []) :
    generateKeplerName store kepoi_name = mkKeplerName (maxAssignedLabel store + 1) 'b' := by
  have hspec := findLastKeplerName_spec hcanon
  simp only [generateKeplerName]
  rw [hnone]
  show mkKeplerName
      (match findLastKeplerName store with
        | some s => (extractKeplerNumber s).getD 0 + 1
        | none => 1) 'b' = mkKeplerName (maxAssignedLabel store + 1) 'b'
  cases hf : findLastKeplerName store with
  | none =>
    rw [hspec.1 hf]
  | some t =>
    show mkKeplerName ((extractKeplerNumber t).getD 0 + 1) 'b' =
      mkKeplerName (maxAssignedLabel store + 1) 'b'
    rw [hspec.2 t hf]
    simp

theorem getNextAvailableLetter_spec (used : List Char) :
    (used = [] → getNextAvailableLetter used = 'b') ∧
    ((∀ c ∈ alphabetLetters, c ∈ used) → getNextAvailableLetter used = 'z') ∧
    ((∃ c ∈ alphabetLetters, c ∉ used) →
      ∃ l1 l2, alphabetLetters = l1 ++ getNextAvailableLetter used :: l2 ∧
        (∀ c ∈ l1, c ∈ used) ∧ getNextAvailableLetter used ∉ used) := by
  refine ⟨?_, ?_, ?_⟩
  · intro h; subst h; exact getNextAvailableLetter_nil
  · intro h; exact nextLetterLoop_all_used _ _ h
  · intro h; exact nextLetterLoop_firstUnused _ _ h

theorem generateKeplerName_caseA {store : List KOIRecord} {kepoi_name : String}
    {groups : List (Nat × List Char)}
    (hg : groups = buildKeplerGroups (findSimilarKOIs store (extractKOIBase kepoi_name)))
    (hne : groups ≠ []) :
    ∃ chosen,
      (chosen, lookupGroup groups chosen) ∈ groups ∧
      (∀ p ∈ groups, p.2.length ≤ (lookupGroup groups chosen).length) ∧
      generateKeplerName store kepoi_name =
        mkKeplerName chosen (getNextAvailableLetter (lookupGroup groups chosen)) := by
  have hkeys : groups.map Prod.fst ≠ [] := by
    intro hc
    exact hne (List.map_eq_nil_iff.mp hc)
  have hnd : (groups.map Prod.fst).Nodup := by
    rw [hg]; exact buildKeplerGroups_keys_nodup _
  cases hsort : sortKeys (groups.map Prod.fst) with
  | nil => exact absurd hsort (sortKeys_ne_nil hkeys)
  | cons k ks =>
    set f : Nat → Nat := fun n => (lookupGroup groups n).length with hf
    have hpick : pickMostPopular groups = some (pickMax f k ks) := by
      unfold pickMostPopular
      rw [hsort]
    obtain ⟨hmem, hmax⟩ := pickMax_spec f ks k
    have hchosen_keys : pickMax f k ks ∈ groups.map Prod.fst := by
      have : pickMax f k ks ∈ sortKeys (groups.map Prod.fst) := by
        rw [hsort]; exact hmem
      exact (mem_sortKeys _).mp this
    refine ⟨pickMax f k ks, lookupGroup_mem hchosen_keys, ?_, ?_⟩
    · intro p hp
      have hp1 : p.1 ∈ sortKeys (groups.map Prod.fst) := by
        rw [mem_sortKeys]
        exact List.mem_map_of_mem Prod.fst hp
      rw [hsort] at hp1
      have := hmax p.1 hp1
      rw [hf] at this
      simp only at this
      rw [lookupGroup_eq_of_mem_nodup hnd hp] at this
      exact this
    · simp only [generateKeplerName]
      rw [← hg, hpick]

/-! ### Gateway lemmas -/

theorem send_success_eq (env : SyncEnv) (store : List KOIRecord) (name : String) :
    (sendCandidateToInferAPI env store name).1.success = !(sendOutcomeFailed env name) := by
  unfold sendCandidateToInferAPI sendOutcomeFailed
  cases hff : env.fetchFull name with
  | error msg => rfl
  | ok d =>
    cases hinf : env.infer name with
    | timeout => rfl
    | connError m => rfl
    | httpError st t => rfl
    | ok st data =>
      dsimp only
      by_cases hst : st = 200
      · subst hst
        rw [if_pos rfl]
        have hrhs : (!decide ((200 : Nat) ≠ 200)) = true := by decide
        rw [hrhs]
        by_cases hp1 : data.prediction.map upperStr = some "FALSE POSITIVE"
        · rw [if_pos hp1]
        · rw [if_neg hp1]
          by_cases hp2 : data.prediction.map upperStr = some "CONFIRMED"
          · rw [if_pos hp2]
          · rw [if_neg hp2]
      · simp only [if_neg hst]
        simp [hst]

theorem send_failed_store (env : SyncEnv) (store : List KOIRecord) (name : String)
    (hf : sendOutcomeFailed env name = true) :
    (sendCandidateToInferAPI env store name).2 = store := by
  unfold sendCandidateToInferAPI
  unfold sendOutcomeFailed at hf
  cases hff : env.fetchFull name with
  | error msg => rfl
  | ok d =>
    rw [hff] at hf
    cases hinf : env.infer name with
    | timeout => rfl
    | connError m => rfl
    | httpError st t => rfl
    | ok st data =>
      rw [hinf] at hf
      have hst : ¬(st = 200) := by
        intro hc
        subst hc
        simp at hf
      dsimp only
      rw [if_neg hst]

theorem send_failed_error (env : SyncEnv) (store : List KOIRecord) (name : String)
    (hf : sendOutcomeFailed env name = true) :
    (sendCandidateToInferAPI env store name).1.error.isSome = true := by
  unfold sendCandidateToInferAPI
  unfold sendOutcomeFailed at hf
  cases hff : env.fetchFull name with
  | error msg => rfl
  | ok d =>
    rw [hff] at hf
    cases hinf : env.infer name with
    | timeout => rfl
    | connError m => rfl
    | httpError st t => rfl
    | ok st data =>
      rw [hinf] at hf
      have hst : ¬(st = 200) := by
        intro hc
        subst hc
        simp at hf
      dsimp only
      rw [if_neg hst]
      rfl

theorem send_store_shape (env : SyncEnv) (store : List KOIRecord) (name : String) :
    ∃ delta, (sendCandidateToInferAPI env store name).2 = store ++ delta ∧
      ∀ r ∈ delta, ∃ d, env.fetchFull name = .ok d ∧ r.kepoi_name = d.kepoi_name := by
  unfold sendCandidateToInferAPI
  cases hff : env.fetchFull name with
  | error msg => exact ⟨[], by simp, by simp⟩
  | ok d =>
    cases hinf : env.infer name with
    | timeout => exact ⟨[], by simp, by simp⟩
    | connError m => exact ⟨[], by simp, by simp⟩
    | httpError st t => exact ⟨[], by simp, by simp⟩
    | ok st data =>
      dsimp only
      by_cases hst : st = 200
      · rw [if_pos hst]
        split
        · refine ⟨_, rfl, ?_⟩
          intro r hr
          rw [List.mem_singleton] at hr
          subst hr
          exact ⟨d, rfl, rfl⟩
        · split
          · refine ⟨_, rfl, ?_⟩
            intro r hr
            rw [List.mem_singleton] at hr
            subst hr
            exact ⟨d, rfl, rfl⟩
          · exact ⟨[], by simp, by simp⟩
      · rw [if_neg hst]
        exact ⟨[], by simp, by simp⟩

/-! ### Per-record dispatch lemmas -/

theorem processEntry_shape (env : SyncEnv) (acc : List KOIRecord × SyncStats)
    (e : KOIEntry) :
    ∃ delta es,
      (processEntry env acc e).1 = acc.1 ++ delta ∧
      (∀ r ∈ delta, ∃ d, env.fetchFull e.kepoi_name = .ok d ∧
        r.kepoi_name = d.kepoi_name) ∧
      (processEntry env acc e).2.errorDetails = acc.2.errorDetails ++ es ∧
      (processEntry env acc e).2.errors = acc.2.errors + es.length ∧
      (∀ dtl ∈ es, dtl.kepoi_name = some e.kepoi_name) := by
  simp only [processEntry]
  by_cases h1 : e.koi_disposition.map upperStr = some "CONFIRMED" ∨
      e.koi_disposition.map upperStr = some "FALSE POSITIVE"
  · rw [if_pos h1]
    cases hff : env.fetchFull e.kepoi_name with
    | error msg =>
      refine ⟨[], [⟨some e.kepoi_name, "processing_error", msg, none⟩],
        by simp, by simp, by simp, by simp, by simp⟩
    | ok d =>
      dsimp only
      by_cases h2 : e.koi_disposition.map upperStr = some "CONFIRMED"
      · rw [if_pos h2]
        refine ⟨[recordOfFull d], [], rfl, ?_, by simp, by simp, by simp⟩
        intro r hr
        rw [List.mem_singleton] at hr
        subst hr
        exact ⟨d, rfl, rfl⟩
      · rw [if_neg h2]
        refine ⟨[recordOfFull d], [], rfl, ?_, by simp, by simp, by simp⟩
        intro r hr
        rw [List.mem_singleton] at hr
        subst hr
        exact ⟨d, rfl, rfl⟩
  · rw [if_neg h1]
    by_cases h2 : e.koi_disposition.map upperStr = some "CANDIDATE"
    · rw [if_pos h2]
      obtain ⟨sdelta, hsd, hsdnames⟩ := send_store_shape env acc.1 e.kepoi_name
      by_cases hs : (sendCandidateToInferAPI env acc.1 e.kepoi_name).1.success = true
      · rw [if_pos hs]
        split
        · exact ⟨sdelta, [], hsd, hsdnames, by simp, by simp, by simp⟩
        · split
          · exact ⟨sdelta, [], hsd, hsdnames, by simp, by simp, by simp⟩
          · split
            · exact ⟨sdelta, [], hsd, hsdnames, by simp, by simp, by simp⟩
            · exact ⟨sdelta, [], hsd, hsdnames, by simp, by simp, by simp⟩
      · rw [if_neg hs]
        refine ⟨sdelta,
          [⟨some e.kepoi_name, "infer_api_error",
            (sendCandidateToInferAPI env acc.1 e.kepoi_name).1.error.getD "",
            some (statusOrUnknown (sendCandidateToInferAPI env acc.1 e.kepoi_name).1.status)⟩],
          hsd, hsdnames, by simp, by simp, by simp⟩
    · rw [if_neg h2]
      refine ⟨[], [⟨some e.kepoi_name, "unknown_disposition",
        "Unknown status: " ++ ((e.koi_disposition.map upperStr).getD "undefined"), none⟩],
        by simp, by simp, by simp, by simp, by simp⟩

theorem processEntry_candidate_failed (env : SyncEnv) (acc : List KOIRecord × SyncStats)
    (e : KOIEntry) (hd : e.koi_disposition.map upperStr = some "CANDIDATE")
    (hf : sendOutcomeFailed env e.kepoi_name = true) :
    processEntry env acc e =
      (acc.1,
       { acc.2 with
         candidates := acc.2.candidates + 1,
         errors := acc.2.errors + 1,
         errorDetails := acc.2.errorDetails ++
           [⟨some e.kepoi_name, "infer_api_error",
             (sendCandidateToInferAPI env acc.1 e.kepoi_name).1.error.getD "",
             some (statusOrUnknown (sendCandidateToInferAPI env acc.1 e.kepoi_name).1.status)⟩] }) := by
  have hnot1 : ¬(e.koi_disposition.map upperStr = some "CONFIRMED" ∨
      e.koi_disposition.map upperStr = some "FALSE POSITIVE") := by
    rw [hd]; decide
  have hsucc : (sendCandidateToInferAPI env acc.1 e.kepoi_name).1.success = false := by
    rw [send_success_eq, hf]
    rfl
  simp only [processEntry]
  rw [if_neg hnot1, if_pos hd, if_neg (by rw [hsucc]; exact Bool.false_ne_true),
    send_failed_store env acc.1 e.kepoi_name hf]

theorem processEntry_decided_fetchError (env : SyncEnv) (acc : List KOIRecord × SyncStats)
    (e : KOIEntry) (msg : String)
    (hd : e.koi_disposition.map upperStr = some "CONFIRMED" ∨
      e.koi_disposition.map upperStr = some "FALSE POSITIVE")
    (hf : env.fetchFull e.kepoi_name = .error msg) :
    processEntry env acc e =
      (acc.1,
       { acc.2 with
         errors := acc.2.errors + 1,
         errorDetails := acc.2.errorDetails ++
           [⟨some e.kepoi_name, "processing_error", msg, none⟩] }) := by
  simp only [processEntry]
  rw [if_pos hd, hf]

/-! ### Pass-level lemmas -/

theorem foldl_processEntry_shape (env : SyncEnv) :
    ∀ (l : List KOIEntry) (acc : List KOIRecord × SyncStats),
      ∃ delta es,
        (l.foldl (processEntry env) acc).1 = acc.1 ++ delta ∧
        (∀ r ∈ delta, ∃ e ∈ l, ∃ d, env.fetchFull e.kepoi_name = .ok d ∧
          r.kepoi_name = d.kepoi_name) ∧
        (l.foldl (processEntry env) acc).2.errorDetails = acc.2.errorDetails ++ es ∧
        (l.foldl (processEntry env) acc).2.errors = acc.2.errors + es.length ∧
        (∀ dtl ∈ es, ∃ e ∈ l, dtl.kepoi_name = some e.kepoi_name) := by
  intro l
  induction l with
  | nil =>
    intro acc
    exact ⟨[], [], by simp, by simp, by simp, by simp, by simp⟩
  | cons e rest ih =>
    intro acc
    obtain ⟨d1, e1, hd1, hn1, he1, her1, hen1⟩ := processEntry_shape env acc e
    obtain ⟨d2, e2, hd2, hn2, he2, her2, hen2⟩ := ih (processEntry env acc e)
    refine ⟨d1 ++ d2, e1 ++ e2, ?_, ?_, ?_, ?_, ?_⟩
    · rw [List.foldl_cons, hd2, hd1, List.append_assoc]
    · intro r hr
      rcases List.mem_append.mp hr with h | h
      · obtain ⟨d, hfd, hrn⟩ := hn1 r h
        exact ⟨e, by simp, d, hfd, hrn⟩
      · obtain ⟨e2m, he2m, rest2⟩ := hn2 r h
        exact ⟨e2m, by simp [he2m], rest2⟩
    · rw [List.foldl_cons, he2, he1, List.append_assoc]
    · rw [List.foldl_cons, her2, her1, List.length_append]
      omega
    · intro dtl hdtl
      rcases List.mem_append.mp hdtl with h | h
      · exact ⟨e, by simp, hen1 dtl h⟩
      · obtain ⟨em, hem, hh⟩ := hen2 dtl h
        exact ⟨em, by simp [hem], hh⟩

theorem synchronizeKOIData_ok {env : SyncEnv} {remote : List KOIEntry}
    (h : env.fetchNames = .ok remote) (store : List KOIRecord) :
    ∃ stats store2, synchronizeKOIData env store = .ok (stats, store2) := by
  simp only [synchronizeKOIData, h]
  split
  · exact ⟨_, _, rfl⟩
  · exact ⟨_, _, rfl⟩

theorem synchronizeKOIData_error {env : SyncEnv} {msg : String}
    (h : env.fetchNames = .error msg) (store : List KOIRecord) :
    synchronizeKOIData env store = .error msg := by
  simp only [synchronizeKOIData, h]

theorem synchronizeKOIData_run_eq {env : SyncEnv} {remote : List KOIEntry}
    (h : env.fetchNames = .ok remote) (store : List KOIRecord)
    (hne : filterNewEntries remote (getExistingKepOINames store) ≠ []) :
    synchronizeKOIData env store =
      .ok (((filterNewEntries remote (getExistingKepOINames store)).foldl
              (processEntry env)
              (store,
               ⟨remote.length,
                (filterNewEntries remote (getExistingKepOINames store)).length,
                0, 0, 0, 0, 0, 0, 0, 0, 0, []⟩)).2,
           ((filterNewEntries remote (getExistingKepOINames store)).foldl
              (processEntry env)
              (store,
               ⟨remote.length,
                (filterNewEntries remote (getExistingKepOINames store)).length,
                0, 0, 0, 0, 0, 0, 0, 0, 0, []⟩)).1) := by
  simp only [synchronizeKOIData, h]
  rw [if_neg (by
    intro hc
    exact hne (List.isEmpty_iff.mp hc))]

theorem synchronizeKOIData_empty {env : SyncEnv} {remote : List KOIEntry}
    (h : env.fetchNames = .ok remote) (store : List KOIRecord)
    (hemp : filterNewEntries remote (getExistingKepOINames store) = []) :
    synchronizeKOIData env store =
      .ok (⟨remote.length, 0, 0, 0, 0, 0, 0, 0, 0, 0, 0, []⟩, store) := by
  simp only [synchronizeKOIData, h]
  rw [if_pos (by rw [hemp]; rfl), hemp]
  rfl

theorem synchronizeKOIData_store_shape {env : SyncEnv} {remote : List KOIEntry}
    {store store2 : List KOIRecord} {stats : SyncStats}
    (h : env.fetchNames = .ok remote)
    (hrun : synchronizeKOIData env store = .ok (stats, store2)) :
    ∃ delta, store2 = store ++ delta ∧
      ∀ r ∈ delta, ∃ e ∈ filterNewEntries remote (getExistingKepOINames store),
        ∃ d, env.fetchFull e.kepoi_name = .ok d ∧ r.kepoi_name = d.kepoi_name := by
  by_cases hemp : filterNewEntries remote (getExistingKepOINames store) = []
  · rw [synchronizeKOIData_empty h store hemp] at hrun
    injection hrun with hrun2
    injection hrun2 with _ hst
    exact ⟨[], by rw [← hst]; simp, by simp⟩
  · rw [synchronizeKOIData_run_eq h store hemp] at hrun
    injection hrun with hrun2
    injection hrun2 with _ hst
    obtain ⟨delta, es, hd, hn, _, _, _⟩ :=
      foldl_processEntry_shape env (filterNewEntries remote (getExistingKepOINames store))
        (store,
         ⟨remote.length, (filterNewEntries remote (getExistingKepOINames store)).length,
          0, 0, 0, 0, 0, 0, 0, 0, 0, []⟩)
    refine ⟨delta, ?_, hn⟩
    rw [← hst]
    exact hd

/-! ### Pointwise automation-invariant lemmas -/

theorem send_appended_ai (env : SyncEnv) (store : List KOIRecord) (name : String) :
    ∀ r ∈ (sendCandidateToInferAPI env store name).2, r ∈ store ∨
      (r.is_ai = true → r.koi_disposition = some "CONFIRMED" → r.kepler_name ≠ none) := by
  unfold sendCandidateToInferAPI
  cases hff : env.fetchFull name with
  | error msg => exact fun r hr => Or.inl hr
  | ok d =>
    cases hinf : env.infer name with
    | timeout => exact fun r hr => Or.inl hr
    | connError m => exact fun r hr => Or.inl hr
    | httpError st t => exact fun r hr => Or.inl hr
    | ok st data =>
      dsimp only
      by_cases hst : st = 200
      · rw [if_pos hst]
        by_cases hp1 : data.prediction.map upperStr = some "FALSE POSITIVE"
        · rw [if_pos hp1]
          intro r hr
          rcases List.mem_append.mp hr with h | h
          · exact Or.inl h
          · rw [List.mem_singleton] at h
            subst h
            refine Or.inr (fun _ hdisp => ?_)
            simp at hdisp
        · rw [if_neg hp1]
          by_cases hp2 : data.prediction.map upperStr = some "CONFIRMED"
          · rw [if_pos hp2]
            intro r hr
            rcases List.mem_append.mp hr with h | h
            · exact Or.inl h
            · rw [List.mem_singleton] at h
              subst h
              exact Or.inr (fun _ _ => by simp)
          · rw [if_neg hp2]
            exact fun r hr => Or.inl hr
      · rw [if_neg hst]
        exact fun r hr => Or.inl hr

theorem processEntry_appended_ai (env : SyncEnv) (acc : List KOIRecord × SyncStats)
    (e : KOIEntry) :
    ∀ r ∈ (processEntry env acc e).1, r ∈ acc.1 ∨
      (r.is_ai = true → r.koi_disposition = some "CONFIRMED" → r.kepler_name ≠ none) := by
  simp only [processEntry]
  by_cases h1 : e.koi_disposition.map upperStr = some "CONFIRMED" ∨
      e.koi_disposition.map upperStr = some "FALSE POSITIVE"
  · rw [if_pos h1]
    cases hff : env.fetchFull e.kepoi_name with
    | error msg => exact fun r hr => Or.inl hr
    | ok d =>
      dsimp only
      have hbase : ∀ r ∈ acc.1 ++ [recordOfFull d], r ∈ acc.1 ∨
          (r.is_ai = true → r.koi_disposition = some "CONFIRMED" → r.kepler_name ≠ none) := by
        intro r hr
        rcases List.mem_append.mp hr with h | h
        · exact Or.inl h
        · rw [List.mem_singleton] at h
          subst h
          exact Or.inr (fun hai => by simp [recordOfFull] at hai)
      by_cases h2 : e.koi_disposition.map upperStr = some "CONFIRMED"
      · rw [if_pos h2]; exact hbase
      · rw [if_neg h2]; exact hbase
  · rw [if_neg h1]
    by_cases h2 : e.koi_disposition.map upperStr = some "CANDIDATE"
    · rw [if_pos h2]
      by_cases hs : (sendCandidateToInferAPI env acc.1 e.kepoi_name).1.success = true
      · rw [if_pos hs]
        have hsend := send_appended_ai env acc.1 e.kepoi_name
        split
        · exact hsend
        · split
          · exact hsend
          · split
            · exact hsend
            · exact hsend
      · rw [if_neg hs]
        exact send_appended_ai env acc.1 e.kepoi_name
    · rw [if_neg h2]
      exact fun r hr => Or.inl hr

theorem foldl_processEntry_ai (env : SyncEnv) :
    ∀ (l : List KOIEntry) (acc : List KOIRecord × SyncStats),
      ∀ r ∈ (l.foldl (processEntry env) acc).1, r ∈ acc.1 ∨
        (r.is_ai = true → r.koi_disposition = some "CONFIRMED" → r.kepler_name ≠ none) := by
  intro l
  induction l with
  | nil => exact fun acc r hr => Or.inl hr
  | cons e rest ih =>
    intro acc r hr
    rw [List.foldl_cons] at hr
    rcases ih (processEntry env acc e) r hr with h | h
    · exact processEntry_appended_ai env acc e r h
    · exact Or.inr h

/-! ### Claim-specific environments -/

/-- Environment for the C1 witness: a pass whose remote fetch is empty. -/
def c1Env : SyncEnv := ⟨.ok [], fun _ => .error "offline", fun _ => .timeout⟩

/-- Environment for the C6 witness: classifier answers HTTP 200. -/
def c6Env : SyncEnv :=
  ⟨.ok [],
   fun n => .ok ⟨n, some "CANDIDATE", none, []⟩,
   fun _ => .ok 200 ⟨some "False Positive", some 1, none⟩⟩

/-- Environment for the C7 witness: the inference call times out. -/
def c7Env : SyncEnv :=
  ⟨.ok [],
   fun n => .ok ⟨n, some "CANDIDATE", none, []⟩,
   fun _ => .timeout⟩

/-- Environment for the C10 witness: HTTP 200 response without a
probability field. -/
def c10Env : SyncEnv :=
  ⟨.ok [],
   fun n => .ok ⟨n, some "CANDIDATE", none, []⟩,
   fun _ => .ok 200 ⟨some "confirmed", none, none⟩⟩

/-! ### Claim theorems -/

/-- C1: while a pass is running, `runSyncNow` raises the Conflict error
`A synchronization is already in progress` and changes nothing — the new
pass is not queued, the scheduler state (including the pass log, so no
second running pass record) and the store are untouched; and a pass
started while the guard is clear always releases the guard (the finally
block of `executeSyncTask`), whether the synchronization succeeds or
fails (`env` ranges over both). -/
theorem C1_single_flight_guard (s1 s2 : SchedulerState) (env : SyncEnv)
    (store : List KOIRecord) (h1 : s1.isRunning = true) (h2 : s2.isRunning = false) :
    runSyncNow s1 env store =
      (.error "A synchronization is already in progress", s1, store) ∧
    (executeSyncTask s2 env store).2.1.isRunning = false := by
  constructor
  · unfold runSyncNow
    rw [if_pos h1]
  · unfold executeSyncTask
    rw [if_neg (by rw [h2]; exact Bool.false_ne_true)]
    cases synchronizeKOIData env store with
    | ok p =>
      obtain ⟨stats, store2⟩ := p
      rfl
    | error msg => rfl

/-- C1 witness: the guard theorem applied at a concrete running state, a
concrete idle state, and a concrete environment. -/
theorem C1_single_flight_guard_witness :
    (SchedulerState.mk true false []).isRunning = true ∧
    (SchedulerState.mk false false []).isRunning = false ∧
    (runSyncNow ⟨true, false, []⟩ c1Env [] =
      (.error "A synchronization is already in progress", ⟨true, false, []⟩, []) ∧
     (executeSyncTask ⟨false, false, []⟩ c1Env []).2.1.isRunning = false) :=
  ⟨rfl, rfl, C1_single_flight_guard ⟨true, false, []⟩ ⟨false, false, []⟩ c1Env [] rfl rfl⟩

/-- C6: on a successful (HTTP 200) classifier response carrying a
probability p, a verdict label that upper-cases to FALSE POSITIVE is
persisted as a false positive with confidence exactly 1 - p, and one
that upper-cases to CONFIRMED as confirmed with confidence exactly p;
in both cases the persisted record has IS_AI true and the ai_prediction
audit object populated. -/
theorem C6_confidence_rules (env : SyncEnv) (store : List KOIRecord) (name : String)
    (d : KOIFull) (resp : InferResponse) (lbl : String) (p : Rat)
    (hfetch : env.fetchFull name = .ok d)
    (hinf : env.infer name = .ok 200 resp)
    (hpred : resp.prediction = some lbl)
    (hprob : resp.probability = some p) :
    (upperStr lbl = "FALSE POSITIVE" →
      ∃ rec, (sendCandidateToInferAPI env store name).2 = store ++ [rec] ∧
        rec.koi_disposition = some "FALSE POSITIVE" ∧
        rec.confidence_score = some (1 - p) ∧
        rec.is_ai = true ∧
        rec.ai_prediction.isSome = true ∧
        (sendCandidateToInferAPI env store name).1.action = some "saved_as_false_positive") ∧
    (upperStr lbl = "CONFIRMED" →
      ∃ rec, (sendCandidateToInferAPI env store name).2 = store ++ [rec] ∧
        rec.koi_disposition = some "CONFIRMED" ∧
        rec.confidence_score = some p ∧
        rec.is_ai = true ∧
        rec.ai_prediction.isSome = true ∧
        (sendCandidateToInferAPI env store name).1.action = some "saved_as_confirmed") := by
  constructor
  · intro hlbl
    have hp1 : resp.prediction.map upperStr = some "FALSE POSITIVE" := by
      rw [hpred, Option.map_some', hlbl]
    unfold sendCandidateToInferAPI
    rw [hfetch]
    dsimp only
    rw [hinf]
    dsimp only
    rw [if_pos rfl, if_pos hp1]
    refine ⟨_, rfl, rfl, ?_, rfl, rfl, rfl⟩
    simp [hprob]
  · intro hlbl
    have hp1 : ¬(resp.prediction.map upperStr = some "FALSE POSITIVE") := by
      rw [hpred, Option.map_some', hlbl]
      decide
    have hp2 : resp.prediction.map upperStr = some "CONFIRMED" := by
      rw [hpred, Option.map_some', hlbl]
    unfold sendCandidateToInferAPI
    rw [hfetch]
    dsimp only
    rw [hinf]
    dsimp only
    rw [if_pos rfl, if_neg hp1, if_pos hp2]
    refine ⟨_, rfl, rfl, ?_, rfl, rfl, rfl⟩
    simp [hprob]

/-- C6 witness: the confidence rules applied at a concrete environment
whose response carries label False Positive and probability 1. -/
theorem C6_confidence_rules_witness :
    c6Env.fetchFull "K00001.01" = .ok ⟨"K00001.01", some "CANDIDATE", none, []⟩ ∧
    c6Env.infer "K00001.01" = .ok 200 ⟨some "False Positive", some 1, none⟩ ∧
    upperStr "False Positive" = "FALSE POSITIVE" ∧
    ((upperStr "False Positive" = "FALSE POSITIVE" →
      ∃ rec, (sendCandidateToInferAPI c6Env [] "K00001.01").2 = [] ++ [rec] ∧
        rec.koi_disposition = some "FALSE POSITIVE" ∧
        rec.confidence_score = some (1 - 1) ∧
        rec.is_ai = true ∧
        rec.ai_prediction.isSome = true ∧
        (sendCandidateToInferAPI c6Env [] "K00001.01").1.action =
          some "saved_as_false_positive") ∧
     (upperStr "False Positive" = "CONFIRMED" →
      ∃ rec, (sendCandidateToInferAPI c6Env [] "K00001.01").2 = [] ++ [rec] ∧
        rec.koi_disposition = some "CONFIRMED" ∧
        rec.confidence_score = some 1 ∧
        rec.is_ai = true ∧
        rec.ai_prediction.isSome = true ∧
        (sendCandidateToInferAPI c6Env [] "K00001.01").1.action =
          some "saved_as_confirmed")) :=
  ⟨rfl, rfl, by decide,
   C6_confidence_rules c6Env [] "K00001.01" ⟨"K00001.01", some "CANDIDATE", none, []⟩
     ⟨some "False Positive", some 1, none⟩ "False Positive" 1 rfl rfl rfl rfl⟩

/-- C7: for every failure mode of the gateway call — full-data fetch
failure, timeout at the hard 10000 ms limit, non-timeout transport
error, rejected non-2xx response, or resolved non-200 response — the
call returns a structured failure (success false, error captured) with
no store change; it never raises (the model is a total function) and
consults the inference endpoint at most once, so there is no retry.  The
configured hard timeout constant is 10 seconds. -/
theorem C7_gateway_never_raises (env : SyncEnv) (store : List KOIRecord) (name : String)
    (hfail :
      (∃ msg, env.fetchFull name = .error msg) ∨
      (∃ d, env.fetchFull name = .ok d ∧
        (env.infer name = .timeout ∨
         (∃ msg, env.infer name = .connError msg) ∨
         (∃ st txt, env.infer name = .httpError st txt) ∨
         (∃ st data, env.infer name = .ok st data ∧ st ≠ 200)))) :
    (sendCandidateToInferAPI env store name).1.success = false ∧
    (sendCandidateToInferAPI env store name).1.error.isSome = true ∧
    (sendCandidateToInferAPI env store name).2 = store ∧
    BACKEND_INFER_TIMEOUT_MS = 10 * 1000 := by
  have hof : sendOutcomeFailed env name = true := by
    unfold sendOutcomeFailed
    rcases hfail with ⟨msg, hm⟩ | ⟨d, hd, hcase⟩
    · rw [hm]
    · rw [hd]
      rcases hcase with ht | ⟨m, hm⟩ | ⟨st, txt, hh⟩ | ⟨st, data, ho, hne⟩
      · rw [ht]
      · rw [hm]
      · rw [hh]
      · rw [ho]
        simp [hne]
  refine ⟨?_, send_failed_error env store name hof, send_failed_store env store name hof, rfl⟩
  rw [send_success_eq, hof]
  rfl

/-- C7 witness: the gateway failure theorem applied at a concrete
environment whose inference call times out. -/
theorem C7_gateway_never_raises_witness :
    c7Env.infer "K00001.01" = .timeout ∧
    ((sendCandidateToInferAPI c7Env [] "K00001.01").1.success = false ∧
     (sendCandidateToInferAPI c7Env [] "K00001.01").1.error.isSome = true ∧
     (sendCandidateToInferAPI c7Env [] "K00001.01").2 = [] ∧
     BACKEND_INFER_TIMEOUT_MS = 10 * 1000) :=
  ⟨rfl,
   C7_gateway_never_raises c7Env [] "K00001.01"
     (Or.inr ⟨⟨"K00001.01", some "CANDIDATE", none, []⟩, rfl, Or.inl rfl⟩)⟩

/-- C10: when a successful classifier response carries no probability
field, the code reads it as 0 (the JavaScript `probability || 0`): a
FALSE POSITIVE verdict is persisted with confidence exactly 1 and a
CONFIRMED verdict with confidence exactly 0. -/
theorem C10_missing_probability (env : SyncEnv) (store : List KOIRecord) (name : String)
    (d : KOIFull) (resp : InferResponse) (lbl : String)
    (hfetch : env.fetchFull name = .ok d)
    (hinf : env.infer name = .ok 200 resp)
    (hpred : resp.prediction = some lbl)
    (hprob : resp.probability = none) :
    (upperStr lbl = "FALSE POSITIVE" →
      ∃ rec, (sendCandidateToInferAPI env store name).2 = store ++ [rec] ∧
        rec.koi_disposition = some "FALSE POSITIVE" ∧
        rec.confidence_score = some 1 ∧
        rec.is_ai = true) ∧
    (upperStr lbl = "CONFIRMED" →
      ∃ rec, (sendCandidateToInferAPI env store name).2 = store ++ [rec] ∧
        rec.koi_disposition = some "CONFIRMED" ∧
        rec.confidence_score = some 0 ∧
        rec.is_ai = true) := by
  constructor
  · intro hlbl
    have hp1 : resp.prediction.map upperStr = some "FALSE POSITIVE" := by
      rw [hpred, Option.map_some', hlbl]
    unfold sendCandidateToInferAPI
    rw [hfetch]
    dsimp only
    rw [hinf]
    dsimp only
    rw [if_pos rfl, if_pos hp1]
    refine ⟨_, rfl, rfl, ?_, rfl⟩
    simp [hprob]
  · intro hlbl
    have hp1 : ¬(resp.prediction.map upperStr = some "FALSE POSITIVE") := by
      rw [hpred, Option.map_some', hlbl]
      decide
    have hp2 : resp.prediction.map upperStr = some "CONFIRMED" := by
      rw [hpred, Option.map_some', hlbl]
    unfold sendCandidateToInferAPI
    rw [hfetch]
    dsimp only
    rw [hinf]
    dsimp only
    rw [if_pos rfl, if_neg hp1, if_pos hp2]
    refine ⟨_, rfl, rfl, ?_, rfl⟩
    simp [hprob]

/-- C10 witness: the missing-probability theorem applied at a concrete
environment whose response has label confirmed and no probability. -/
theorem C10_missing_probability_witness :
    c10Env.infer "K00001.01" = .ok 200 ⟨some "confirmed", none, none⟩ ∧
    upperStr "confirmed" = "CONFIRMED" ∧
    ((upperStr "confirmed" = "FALSE POSITIVE" →
      ∃ rec, (sendCandidateToInferAPI c10Env [] "K00001.01").2 = [] ++ [rec] ∧
        rec.koi_disposition = some "FALSE POSITIVE" ∧
        rec.confidence_score = some 1 ∧
        rec.is_ai = true) ∧
     (upperStr "confirmed" = "CONFIRMED" →
      ∃ rec, (sendCandidateToInferAPI c10Env [] "K00001.01").2 = [] ++ [rec] ∧
        rec.koi_disposition = some "CONFIRMED" ∧
        rec.confidence_score = some 0 ∧
        rec.is_ai = true)) :=
  ⟨rfl, by decide,
   C10_missing_probability c10Env [] "K00001.01" ⟨"K00001.01", some "CANDIDATE", none, []⟩
     ⟨some "confirmed", none, none⟩ "confirmed" rfl rfl rfl rfl⟩

/-- Environment for the C2 counterexample: the remote snapshot reports
one new CONFIRMED row whose full field set carries no kepler_name. -/
def c2Env : SyncEnv :=
  ⟨.ok [⟨"K00001.01", some "CONFIRMED"⟩],
   fun n => .ok ⟨n, some "CONFIRMED", none, []⟩,
   fun _ => .timeout⟩

/-- The record the C2 counterexample run persists. -/
def c2BadRecord : KOIRecord :=
  ⟨"K00001.01", some "CONFIRMED", none, false, none, none, "nasa_tap", []⟩

/-- Environment for the C2 witness: an empty remote snapshot. -/
def c2WEnv : SyncEnv := ⟨.ok [], fun _ => .error "offline", fun _ => .timeout⟩

/-- C2 counterexample: a reachable store state (one pass from the empty
store) containing a record with status CONFIRMED and a null
assignedName — the pass persists a remote-decided record as-is, with
whatever kepler_name the remote data carries. -/
theorem C2_counterexample :
    synchronizeKOIData c2Env [] =
      .ok (⟨1, 1, 1, 0, 0, 0, 0, 0, 0, 0, 0, []⟩, [c2BadRecord]) ∧
    c2BadRecord.koi_disposition = some "CONFIRMED" ∧
    c2BadRecord.kepler_name = none := by
  refine ⟨?_, rfl, rfl⟩
  rfl

/-- C2 amended: the code only guarantees the invariant for records it
classifies itself — in every store reachable by passes, every record
with IS_AI true and status CONFIRMED carries a non-null assignedName;
directly persisted remote records are stored as-is, and neither
store-wide uniqueness nor nullness for other statuses is enforced. -/
theorem C2_amended_ai_confirmed_named (env : SyncEnv) (store : List KOIRecord)
    (remote : List KOIEntry) (stats : SyncStats) (store2 : List KOIRecord)
    (h : env.fetchNames = .ok remote)
    (hinv : AiConfirmedHasName store)
    (hrun : synchronizeKOIData env store = .ok (stats, store2)) :
    AiConfirmedHasName store2 := by
  intro r hr hai hdisp
  by_cases hemp : filterNewEntries remote (getExistingKepOINames store) = []
  · rw [synchronizeKOIData_empty h store hemp] at hrun
    injection hrun with hrun2
    injection hrun2 with _ hst
    rw [← hst] at hr
    exact hinv r hr hai hdisp
  · rw [synchronizeKOIData_run_eq h store hemp] at hrun
    injection hrun with hrun2
    injection hrun2 with _ hst
    rw [← hst] at hr
    rcases foldl_processEntry_ai env
        (filterNewEntries remote (getExistingKepOINames store))
        (store,
         ⟨remote.length, (filterNewEntries remote (getExistingKepOINames store)).length,
          0, 0, 0, 0, 0, 0, 0, 0, 0, []⟩) r hr with hbase | hprop
    · exact hinv r hbase hai hdisp
    · exact hprop hai hdisp

/-- C2 witness: the amended invariant applied to a concrete pass over an
empty remote snapshot from the empty store. -/
theorem C2_amended_ai_confirmed_named_witness :
    c2WEnv.fetchNames = .ok [] ∧
    AiConfirmedHasName [] ∧
    synchronizeKOIData c2WEnv [] = .ok (⟨0, 0, 0, 0, 0, 0, 0, 0, 0, 0, 0, []⟩, []) ∧
    AiConfirmedHasName [] :=
  ⟨rfl, by intro r hr; simp at hr, rfl,
   C2_amended_ai_confirmed_named c2WEnv [] [] ⟨0, 0, 0, 0, 0, 0, 0, 0, 0, 0, 0, []⟩ []
     rfl (by intro r hr; simp at hr) rfl⟩

/-- The remote entry with an empty (falsy) identity used in the C3
counterexample. -/
def c3BadEntry : KOIEntry := ⟨"", some "CANDIDATE"⟩

/-- Environment for the C3 witness. -/
def c3WEnv : SyncEnv :=
  ⟨.ok [⟨"K00001.01", some "CONFIRMED"⟩],
   fun n => .ok ⟨n, some "CONFIRMED", none, []⟩,
   fun _ => .timeout⟩

/-- The record persisted by the C3 witness pass. -/
def c3WRecord : KOIRecord :=
  ⟨"K00001.01", some "CONFIRMED", none, false, none, none, "nasa_tap", []⟩

/-- C3 counterexample: a remote entry with the empty identity is absent
from the (empty) local set yet excluded from the differ result — the
filter also drops entries with a falsy identity, so the result is not
exactly the remote entries whose identity is absent from the local
set. -/
theorem C3_counterexample :
    c3BadEntry ∈ [c3BadEntry] ∧ ¬(c3BadEntry.kepoi_name ∈ ([] : List String)) ∧
    c3BadEntry ∉ filterNewEntries [c3BadEntry] [] := by
  refine ⟨by simp, by simp, ?_⟩
  decide

/-- C3 amended: the differ returns exactly the remote entries whose
identity is non-empty (truthy) and absent from the local set, in remote
order (a sublist of the remote snapshot); and after a pass that
persisted all its new records, a second pass over the unchanged remote
snapshot finds zero new records. -/
theorem C3_amended_differ (remote : List KOIEntry) (existing : List String)
    (env env2 : SyncEnv) (store store2 : List KOIRecord) (stats : SyncStats)
    (h : env.fetchNames = .ok remote) (h2 : env2.fetchNames = .ok remote)
    (hrun : synchronizeKOIData env store = .ok (stats, store2))
    (hpersisted : ∀ e ∈ filterNewEntries remote (getExistingKepOINames store),
      e.kepoi_name ∈ store2.map KOIRecord.kepoi_name) :
    ((∀ e, e ∈ filterNewEntries remote existing ↔
        (e ∈ remote ∧ e.kepoi_name ≠ "" ∧ ¬(e.kepoi_name ∈ existing))) ∧
      List.Sublist (filterNewEntries remote existing) remote) ∧
    (filterNewEntries remote (getExistingKepOINames store2) = [] ∧
      ∃ stats2, synchronizeKOIData env2 store2 = .ok (stats2, store2) ∧
        stats2.newKOIs = 0) := by
  have hsubnames : ∀ name, name ∈ store.map KOIRecord.kepoi_name →
      name ∈ store2.map KOIRecord.kepoi_name := by
    obtain ⟨delta, hs, _⟩ := synchronizeKOIData_store_shape h hrun
    intro name hn
    rw [hs, List.map_append, List.mem_append]
    exact Or.inl hn
  have hemp : filterNewEntries remote (getExistingKepOINames store2) = [] := by
    rw [filterNewEntries, List.filter_eq_nil_iff]
    intro e he
    by_cases hname : e.kepoi_name = ""
    · simp [hname]
    · by_cases hex : e.kepoi_name ∈ getExistingKepOINames store
      · have hex2 : e.kepoi_name ∈ getExistingKepOINames store2 := by
          rw [getExistingKepOINames, List.mem_filter] at hex ⊢
          exact ⟨hsubnames _ hex.1, hex.2⟩
        simp [contains_iff_mem.mpr hex2]
        exact fun _ => hex2
      · have hnew : e ∈ filterNewEntries remote (getExistingKepOINames store) := by
          rw [filterNewEntries, List.mem_filter]
          refine ⟨he, ?_⟩
          simp only [Bool.and_eq_true, Bool.not_eq_true]
          constructor
          · simpa using hname
          · cases hc : (getExistingKepOINames store).contains e.kepoi_name
            · rfl
            · exact absurd (contains_iff_mem.mp hc) hex
        have hmem2 := hpersisted e hnew
        have hex2 : e.kepoi_name ∈ getExistingKepOINames store2 := by
          rw [getExistingKepOINames, List.mem_filter]
          exact ⟨hmem2, by simpa using hname⟩
        simp [contains_iff_mem.mpr hex2]
        exact fun _ => hex2
  refine ⟨⟨?_, ?_⟩, hemp, ⟨remote.length, 0, 0, 0, 0, 0, 0, 0, 0, 0, 0, []⟩,
    synchronizeKOIData_empty h2 store2 hemp, rfl⟩
  · intro e
    rw [filterNewEntries, List.mem_filter]
    constructor
    · rintro ⟨he, hp⟩
      simp only [Bool.and_eq_true, Bool.not_eq_true] at hp
      refine ⟨he, by simpa using hp.1, ?_⟩
      intro hc
      have hcontr := hp.2
      rw [contains_iff_mem.mpr hc] at hcontr
      simp at hcontr
    · rintro ⟨he, hname, hnotin⟩
      refine ⟨he, ?_⟩
      simp only [Bool.and_eq_true, Bool.not_eq_true]
      constructor
      · simpa using hname
      · cases hc : existing.contains e.kepoi_name
        · rfl
        · exact absurd (contains_iff_mem.mp hc) hnotin
  · exact List.filter_sublist _

/-- C3 witness: the differ characterization and the second-pass
idempotence applied to a concrete one-entry snapshot whose pass persists
its record. -/
theorem C3_amended_differ_witness :
    c3WEnv.fetchNames = .ok [⟨"K00001.01", some "CONFIRMED"⟩] ∧
    synchronizeKOIData c3WEnv [] =
      .ok (⟨1, 1, 1, 0, 0, 0, 0, 0, 0, 0, 0, []⟩, [c3WRecord]) ∧
    (∀ e ∈ filterNewEntries [⟨"K00001.01", some "CONFIRMED"⟩] (getExistingKepOINames []),
      e.kepoi_name ∈ [c3WRecord].map KOIRecord.kepoi_name) ∧
    (((∀ e, e ∈ filterNewEntries [⟨"K00001.01", some "CONFIRMED"⟩] ["K00002.01"] ↔
        (e ∈ [(⟨"K00001.01", some "CONFIRMED"⟩ : KOIEntry)] ∧ e.kepoi_name ≠ "" ∧
          ¬(e.kepoi_name ∈ ["K00002.01"]))) ∧
      List.Sublist (filterNewEntries [⟨"K00001.01", some "CONFIRMED"⟩] ["K00002.01"])
        [⟨"K00001.01", some "CONFIRMED"⟩]) ∧
     (filterNewEntries [⟨"K00001.01", some "CONFIRMED"⟩]
        (getExistingKepOINames [c3WRecord]) = [] ∧
      ∃ stats2, synchronizeKOIData c3WEnv [c3WRecord] = .ok (stats2, [c3WRecord]) ∧
        stats2.newKOIs = 0)) :=
  ⟨rfl, rfl, by decide,
   C3_amended_differ [⟨"K00001.01", some "CONFIRMED"⟩] ["K00002.01"] c3WEnv c3WEnv []
     [c3WRecord] ⟨1, 1, 1, 0, 0, 0, 0, 0, 0, 0, 0, []⟩ rfl rfl rfl (by decide)⟩

/-- Environment for the C9 counterexample: two remote-decided rows; the
full fetch of the first fails, the second succeeds. -/
def c9Env : SyncEnv :=
  ⟨.ok [⟨"K00001.01", some "CONFIRMED"⟩, ⟨"K00002.01", some "FALSE POSITIVE"⟩],
   fun n => if n = "K00002.01" then .ok ⟨n, some "FALSE POSITIVE", none, []⟩
            else .error "network failure",
   fun _ => .timeout⟩

/-- Environment for the C9 witness. -/
def c9WEnv : SyncEnv :=
  ⟨.error "Could not retrieve NASA kepoi_names: socket hang up",
   fun _ => .error "network failure",
   fun _ => .timeout⟩

/-- C9 counterexample: a pass in which a decided record's full fetch
fails does NOT fail — it returns successfully (the per-record try/catch
absorbs the error as a processing_error detail) and continues with, and
persists, the remaining record.  The claim says such a failure is fatal
to the pass. -/
theorem C9_counterexample :
    c9Env.fetchFull "K00001.01" = .error "network failure" ∧
    synchronizeKOIData c9Env [] =
      .ok (⟨2, 2, 0, 1, 0, 0, 0, 0, 0, 0, 1,
            [⟨some "K00001.01", "processing_error", "network failure", none⟩]⟩,
           [⟨"K00002.01", some "FALSE POSITIVE", none, false, none, none, "nasa_tap", []⟩]) := by
  refine ⟨rfl, ?_⟩
  rfl

/-- C9 amended: only a Differ-level fetch failure is fatal to the pass
(the error propagates to the caller); a full-record fetch failure for a
single decided record is caught per record — the error counter is
incremented, a processing_error detail carrying the identity is
appended, the store is untouched for that record, and the pass continues
with the remaining records. -/
theorem C9_fetch_failure_granularity :
    (∀ (env : SyncEnv) (store : List KOIRecord) (msg : String),
      env.fetchNames = .error msg → synchronizeKOIData env store = .error msg) ∧
    (∀ (env : SyncEnv) (acc : List KOIRecord × SyncStats) (e : KOIEntry) (msg : String),
      (e.koi_disposition.map upperStr = some "CONFIRMED" ∨
        e.koi_disposition.map upperStr = some "FALSE POSITIVE") →
      env.fetchFull e.kepoi_name = .error msg →
      processEntry env acc e =
        (acc.1,
         { acc.2 with
           errors := acc.2.errors + 1,
           errorDetails := acc.2.errorDetails ++
             [⟨some e.kepoi_name, "processing_error", msg, none⟩] })) :=
  ⟨fun _env store _msg h => synchronizeKOIData_error h store,
   fun env acc e msg hd hf => processEntry_decided_fetchError env acc e msg hd hf⟩

/-- C9 witness: the two granularity statements applied to concrete
inputs — a failing differ fetch, and a decided entry whose full fetch
fails. -/
theorem C9_fetch_failure_granularity_witness :
    c9WEnv.fetchNames = .error "Could not retrieve NASA kepoi_names: socket hang up" ∧
    c9Env.fetchFull "K00001.01" = .error "network failure" ∧
    synchronizeKOIData c9WEnv [] =
      .error "Could not retrieve NASA kepoi_names: socket hang up" ∧
    processEntry c9Env ([], ⟨2, 2, 0, 0, 0, 0, 0, 0, 0, 0, 0, []⟩)
        ⟨"K00001.01", some "CONFIRMED"⟩ =
      ([], ⟨2, 2, 0, 0, 0, 0, 0, 0, 0, 0, 1,
            [⟨some "K00001.01", "processing_error", "network failure", none⟩]⟩) :=
  ⟨rfl, rfl,
   C9_fetch_failure_granularity.1 c9WEnv []
     "Could not retrieve NASA kepoi_names: socket hang up" rfl,
   C9_fetch_failure_granularity.2 c9Env ([], ⟨2, 2, 0, 0, 0, 0, 0, 0, 0, 0, 0, []⟩)
     ⟨"K00001.01", some "CONFIRMED"⟩ "network failure" (Or.inl rfl) rfl⟩

/-- The store used by the C5 witness: one named record in a different
group. -/
def c5Store : List KOIRecord :=
  [⟨"K00002.01", some "CONFIRMED", some (mkKeplerName 7 'b'), false, none, none,
    "nasa_tap", []⟩]

/-- C5: when no already-named record shares the new identity's group
base, the allocator starts a new group: the numeric label is the
maximum numeric label among all assigned names in the entire store plus
one (one when the store holds no assigned names, since the maximum is
then zero), and the letter is b. -/
theorem C5_case_b_allocation (store : List KOIRecord) (kepoi_name : String)
    (hcanon : ∀ r ∈ store, ∀ kn, r.kepler_name = some kn → IsCanonicalKeplerName kn)
    (hnoshare : ∀ r ∈ store,
      startsWithCI ((extractKOIBase kepoi_name).data ++ ['.']) r.kepoi_name.data = true →
      r.kepler_name = none) :
    generateKeplerName store kepoi_name = mkKeplerName (maxAssignedLabel store + 1) 'b' := by
  apply generateKeplerName_caseB hcanon
  apply buildKeplerGroups_unnamed
  intro r hr
  unfold findSimilarKOIs at hr
  rw [List.mem_filter] at hr
  exact hnoshare r hr.1 hr.2

/-- C5 witness: allocation for a fresh group base over a store whose
only assigned name is Kepler-7 b yields Kepler-8 b. -/
theorem C5_case_b_allocation_witness :
    (∀ r ∈ c5Store, ∀ kn, r.kepler_name = some kn → IsCanonicalKeplerName kn) ∧
    (∀ r ∈ c5Store,
      startsWithCI ((extractKOIBase "K00001.01").data ++ ['.']) r.kepoi_name.data = true →
      r.kepler_name = none) ∧
    maxAssignedLabel c5Store = 7 ∧
    generateKeplerName c5Store "K00001.01" = mkKeplerName (maxAssignedLabel c5Store + 1) 'b' ∧
    generateKeplerName c5Store "K00001.01" = "Kepler-8 b" := by
  have hcanon : ∀ r ∈ c5Store, ∀ kn, r.kepler_name = some kn → IsCanonicalKeplerName kn := by
    intro r hr kn hkn
    simp only [c5Store, List.mem_singleton] at hr
    subst hr
    injection hkn with hkn2
    exact ⟨7, 'b', by decide, hkn2.symm⟩
  have hnoshare : ∀ r ∈ c5Store,
      startsWithCI ((extractKOIBase "K00001.01").data ++ ['.']) r.kepoi_name.data = true →
      r.kepler_name = none := by
    intro r hr hpref
    simp only [c5Store, List.mem_singleton] at hr
    subst hr
    exact absurd hpref (by decide)
  refine ⟨hcanon, hnoshare, by decide, C5_case_b_allocation c5Store "K00001.01" hcanon hnoshare, ?_⟩
  decide

/-- The store used by the C4 witness: one group base with two named
members of the same label. -/
def c4Store : List KOIRecord :=
  [⟨"K00001.01", some "CONFIRMED", some (mkKeplerName 5 'b'), false, none, none,
    "nasa_tap", []⟩,
   ⟨"K00001.02", some "CONFIRMED", some (mkKeplerName 5 'c'), false, none, none,
    "nasa_tap", []⟩]

/-- C4: when at least one named record (with a well-formed, positive
numeric label) shares the new identity's group base, the allocator
selects a numeric label whose group has the most members among the
groups built from the found records, then assigns
`getNextAvailableLetter` of that group's used letters, which is the
first letter of the sequence b..z not already used — b when the group
has no letters yet (so the first member of a group receives b, never a)
and z as fallback when all 25 letters are used. -/
theorem C4_case_a_allocation (store : List KOIRecord) (kepoi_name : String)
    (hcanon : ∀ r ∈ store, ∀ kn, r.kepler_name = some kn →
      ∃ n letter, 1 ≤ n ∧ letter ∈ azLetters ∧ kn = mkKeplerName n letter)
    (hshare : ∃ r ∈ store,
      startsWithCI ((extractKOIBase kepoi_name).data ++ ['.']) r.kepoi_name.data = true ∧
      r.kepler_name ≠ none) :
    ∃ chosen used,
      (chosen, used) ∈ buildKeplerGroups (findSimilarKOIs store (extractKOIBase kepoi_name)) ∧
      (∀ p ∈ buildKeplerGroups (findSimilarKOIs store (extractKOIBase kepoi_name)),
        p.2.length ≤ used.length) ∧
      generateKeplerName store kepoi_name =
        mkKeplerName chosen (getNextAvailableLetter used) ∧
      (used = [] → getNextAvailableLetter used = 'b') ∧
      ((∀ c ∈ alphabetLetters, c ∈ used) → getNextAvailableLetter used = 'z') ∧
      ((∃ c ∈ alphabetLetters, c ∉ used) →
        ∃ l1 l2, alphabetLetters = l1 ++ getNextAvailableLetter used :: l2 ∧
          (∀ c ∈ l1, c ∈ used) ∧ getNextAvailableLetter used ∉ used) := by
  obtain ⟨r, hr, hpref, hname⟩ := hshare
  obtain ⟨kn, hkn⟩ := Option.ne_none_iff_exists'.mp hname
  obtain ⟨n, letter, hn1, hlet, heq⟩ := hcanon r hr kn hkn
  have hmem_sim : r ∈ findSimilarKOIs store (extractKOIBase kepoi_name) := by
    unfold findSimilarKOIs
    rw [List.mem_filter]
    exact ⟨hr, hpref⟩
  have hne : buildKeplerGroups (findSimilarKOIs store (extractKOIBase kepoi_name)) ≠ [] := by
    apply buildKeplerGroups_ne_nil
    refine ⟨r, hmem_sim, kn, hkn, n, ?_, by omega⟩
    rw [heq]
    exact extractKeplerNumber_mkKeplerName n letter
  obtain ⟨chosen, hmem, hmax, hgen⟩ := generateKeplerName_caseA rfl hne
  refine ⟨chosen, lookupGroup _ chosen, hmem, hmax, hgen,
    (getNextAvailableLetter_spec _).1, (getNextAvailableLetter_spec _).2.1,
    (getNextAvailableLetter_spec _).2.2⟩

/-- C4 witness: allocation for K00001.03 over a store whose group
already holds Kepler-5 b and Kepler-5 c; the theorem applies and the
concrete allocation is Kepler-5 d. -/
theorem C4_case_a_allocation_witness :
    (∀ r ∈ c4Store, ∀ kn, r.kepler_name = some kn →
      ∃ n letter, 1 ≤ n ∧ letter ∈ azLetters ∧ kn = mkKeplerName n letter) ∧
    (∃ r ∈ c4Store,
      startsWithCI ((extractKOIBase "K00001.03").data ++ ['.']) r.kepoi_name.data = true ∧
      r.kepler_name ≠ none) ∧
    (∃ chosen used,
      (chosen, used) ∈ buildKeplerGroups (findSimilarKOIs c4Store (extractKOIBase "K00001.03")) ∧
      (∀ p ∈ buildKeplerGroups (findSimilarKOIs c4Store (extractKOIBase "K00001.03")),
        p.2.length ≤ used.length) ∧
      generateKeplerName c4Store "K00001.03" =
        mkKeplerName chosen (getNextAvailableLetter used) ∧
      (used = [] → getNextAvailableLetter used = 'b') ∧
      ((∀ c ∈ alphabetLetters, c ∈ used) → getNextAvailableLetter used = 'z') ∧
      ((∃ c ∈ alphabetLetters, c ∉ used) →
        ∃ l1 l2, alphabetLetters = l1 ++ getNextAvailableLetter used :: l2 ∧
          (∀ c ∈ l1, c ∈ used) ∧ getNextAvailableLetter used ∉ used)) ∧
    generateKeplerName c4Store "K00001.03" = "Kepler-5 d" := by
  have hcanon : ∀ r ∈ c4Store, ∀ kn, r.kepler_name = some kn →
      ∃ n letter, 1 ≤ n ∧ letter ∈ azLetters ∧ kn = mkKeplerName n letter := by
    intro r hr kn hkn
    simp only [c4Store, List.mem_cons, List.mem_singleton] at hr
    rcases hr with hr | hr | hr
    · subst hr
      injection hkn with hkn2
      exact ⟨5, 'b', by decide, by decide, hkn2.symm⟩
    · subst hr
      injection hkn with hkn2
      exact ⟨5, 'c', by decide, by decide, hkn2.symm⟩
    · simp at hr
  have hshare : ∃ r ∈ c4Store,
      startsWithCI ((extractKOIBase "K00001.03").data ++ ['.']) r.kepoi_name.data = true ∧
      r.kepler_name ≠ none := by
    refine ⟨⟨"K00001.01", some "CONFIRMED", some (mkKeplerName 5 'b'), false, none, none,
      "nasa_tap", []⟩, by simp [c4Store], ?_, by simp⟩
    decide
  refine ⟨hcanon, hshare, C4_case_a_allocation c4Store "K00001.03" hcanon hshare, ?_⟩
  decide

/-- C8: a candidate whose gateway call fails is isolated — the pass
still returns successfully, the record is absent from the final store,
exactly one error detail carries its identity, the error counter equals
the number of error details (so it was incremented for this failure),
and a re-run over the same remote data re-discovers the record as new.
Hypotheses: the remote fetch succeeds, full fetches are faithful (the
returned row carries the requested identity), the failed entry occurs
once among the new entries, and its identity is not yet stored. -/
theorem C8_failed_candidate_isolated (env : SyncEnv) (store : List KOIRecord)
    (remote pre post : List KOIEntry) (e : KOIEntry)
    (hnames : env.fetchNames = .ok remote)
    (hfaithful : ∀ n d, env.fetchFull n = .ok d → d.kepoi_name = n)
    (hsplit : filterNewEntries remote (getExistingKepOINames store) = pre ++ e :: post)
    (hdisp : e.koi_disposition.map upperStr = some "CANDIDATE")
    (hfail : sendOutcomeFailed env e.kepoi_name = true)
    (hunique : ∀ x ∈ pre ++ post, x.kepoi_name ≠ e.kepoi_name)
    (hnot_store : ∀ r ∈ store, r.kepoi_name ≠ e.kepoi_name) :
    ∃ stats store2,
      synchronizeKOIData env store = .ok (stats, store2) ∧
      ¬(e.kepoi_name ∈ store2.map KOIRecord.kepoi_name) ∧
      stats.errorDetails.countP (fun dtl => dtl.kepoi_name == some e.kepoi_name) = 1 ∧
      stats.errors = stats.errorDetails.length ∧
      e ∈ filterNewEntries remote (getExistingKepOINames store2) := by
  have hne : filterNewEntries remote (getExistingKepOINames store) ≠ [] := by
    rw [hsplit]; simp
  have hmem_new : e ∈ filterNewEntries remote (getExistingKepOINames store) := by
    rw [hsplit]; simp
  have he_remote : e ∈ remote := by
    rw [filterNewEntries, List.mem_filter] at hmem_new
    exact hmem_new.1
  have he_name : ¬(e.kepoi_name = "") := by
    rw [filterNewEntries, List.mem_filter] at hmem_new
    have := hmem_new.2
    simp only [Bool.and_eq_true, decide_eq_true_eq] at this
    exact this.1
  have hrun := synchronizeKOIData_run_eq hnames store hne
  rw [hsplit, List.foldl_append, List.foldl_cons] at hrun
  obtain ⟨d1, es1, hd1, hn1, he1, her1, hen1⟩ :=
    foldl_processEntry_shape env pre
      (store, ⟨remote.length, (pre ++ e :: post).length, 0, 0, 0, 0, 0, 0, 0, 0, 0, []⟩)
  generalize hA : List.foldl (processEntry env)
      (store, (⟨remote.length, (pre ++ e :: post).length,
        0, 0, 0, 0, 0, 0, 0, 0, 0, []⟩ : SyncStats)) pre = acc1 at hrun hd1 he1 her1
  dsimp only at he1 her1
  rw [List.nil_append] at he1
  rw [Nat.zero_add] at her1
  have hstep := processEntry_candidate_failed env acc1 e hdisp hfail
  generalize hB : processEntry env acc1 e = acc2 at hrun hstep
  have hfst2 : acc2.1 = acc1.1 := by rw [hstep]
  have hdet2 : acc2.2.errorDetails = acc1.2.errorDetails ++
      [⟨some e.kepoi_name, "infer_api_error",
        (sendCandidateToInferAPI env acc1.1 e.kepoi_name).1.error.getD "",
        some (statusOrUnknown (sendCandidateToInferAPI env acc1.1 e.kepoi_name).1.status)⟩] := by
    rw [hstep]
  have herr2 : acc2.2.errors = acc1.2.errors + 1 := by rw [hstep]
  obtain ⟨d3, es3, hd3, hn3, he3, her3, hen3⟩ := foldl_processEntry_shape env post acc2
  -- the failed identity is absent from the final store
  have hnotin2 : ¬(e.kepoi_name ∈ (List.foldl (processEntry env) acc2 post).1.map
      KOIRecord.kepoi_name) := by
    rw [hd3, hfst2, hd1]
    intro hc
    rw [List.map_append, List.map_append, List.mem_append, List.mem_append] at hc
    rcases hc with (hc | hc) | hc
    · obtain ⟨r, hr, hrn⟩ := List.mem_map.mp hc
      exact hnot_store r hr hrn
    · obtain ⟨r, hr, hrn⟩ := List.mem_map.mp hc
      obtain ⟨e1m, he1m, dd, hdd, hrd⟩ := hn1 r hr
      have : e1m.kepoi_name = e.kepoi_name := by
        rw [← hrn, hrd, hfaithful _ _ hdd]
      exact hunique e1m (List.mem_append.mpr (Or.inl he1m)) this
    · obtain ⟨r, hr, hrn⟩ := List.mem_map.mp hc
      obtain ⟨e3m, he3m, dd, hdd, hrd⟩ := hn3 r hr
      have : e3m.kepoi_name = e.kepoi_name := by
        rw [← hrn, hrd, hfaithful _ _ hdd]
      exact hunique e3m (List.mem_append.mpr (Or.inr he3m)) this
  refine ⟨_, _, hrun, hnotin2, ?_, ?_, ?_⟩
  · -- exactly one matching error detail
    rw [he3, hdet2, he1]
    rw [List.countP_append, List.countP_append]
    have hz1 : es1.countP (fun dtl => dtl.kepoi_name == some e.kepoi_name) = 0 := by
      rw [List.countP_eq_zero]
      intro dtl hdtl
      obtain ⟨e1m, he1m, hname⟩ := hen1 dtl hdtl
      simp only [hname, beq_iff_eq, Option.some.injEq]
      exact hunique e1m (List.mem_append.mpr (Or.inl he1m))
    have hz3 : es3.countP (fun dtl => dtl.kepoi_name == some e.kepoi_name) = 0 := by
      rw [List.countP_eq_zero]
      intro dtl hdtl
      obtain ⟨e3m, he3m, hname⟩ := hen3 dtl hdtl
      simp only [hname, beq_iff_eq, Option.some.injEq]
      exact hunique e3m (List.mem_append.mpr (Or.inr he3m))
    rw [hz1, hz3]
    simp
  · -- the error counter equals the number of error details
    rw [he3, hdet2, he1, her3, herr2, her1]
    simp only [List.length_append, List.length_singleton]
  · -- the failed entry is re-discovered by a second differ run
    rw [filterNewEntries, List.mem_filter]
    refine ⟨he_remote, ?_⟩
    simp only [Bool.and_eq_true, decide_eq_true_eq, Bool.not_eq_true]
    refine ⟨he_name, ?_⟩
    cases hc : (getExistingKepOINames
        (List.foldl (processEntry env) acc2 post).1).contains e.kepoi_name
    · rfl
    · exfalso
      have := contains_iff_mem.mp hc
      rw [getExistingKepOINames, List.mem_filter] at this
      exact hnotin2 this.1

/-- Environment for the C8 witness: one new candidate whose inference
call times out. -/
def c8Env : SyncEnv :=
  ⟨.ok [⟨"K00003.01", some "CANDIDATE"⟩],
   fun n => .ok ⟨n, some "CANDIDATE", none, []⟩,
   fun _ => .timeout⟩

/-- C8 witness: the isolation theorem applied to the one-candidate
snapshot with a timing-out gateway. -/
theorem C8_failed_candidate_isolated_witness :
    c8Env.fetchNames = .ok [⟨"K00003.01", some "CANDIDATE"⟩] ∧
    filterNewEntries [⟨"K00003.01", some "CANDIDATE"⟩] (getExistingKepOINames []) =
      [] ++ (⟨"K00003.01", some "CANDIDATE"⟩ : KOIEntry) :: [] ∧
    (⟨"K00003.01", some "CANDIDATE"⟩ : KOIEntry).koi_disposition.map upperStr =
      some "CANDIDATE" ∧
    sendOutcomeFailed c8Env "K00003.01" = true ∧
    (∃ stats store2,
      synchronizeKOIData c8Env [] = .ok (stats, store2) ∧
      ¬((⟨"K00003.01", some "CANDIDATE"⟩ : KOIEntry).kepoi_name ∈
          store2.map KOIRecord.kepoi_name) ∧
      stats.errorDetails.countP
        (fun dtl => dtl.kepoi_name ==
          some (⟨"K00003.01", some "CANDIDATE"⟩ : KOIEntry).kepoi_name) = 1 ∧
      stats.errors = stats.errorDetails.length ∧
      (⟨"K00003.01", some "CANDIDATE"⟩ : KOIEntry) ∈
        filterNewEntries [⟨"K00003.01", some "CANDIDATE"⟩]
          (getExistingKepOINames store2)) :=
  ⟨rfl, by decide, by decide, rfl,
   C8_failed_candidate_isolated c8Env [] [⟨"K00003.01", some "CANDIDATE"⟩] [] []
     ⟨"K00003.01", some "CANDIDATE"⟩ rfl
     (fun n d h => by injection h with h2; rw [← h2])
     (by decide) (by decide) rfl (by simp) (by simp)⟩
